import Mathlib

/-!
Verification of the arcade terminal application.

A shallow embedding of the core logic of the repository (the vim-style
motion parser `src/games/navigation.rs`, the shooter simulation
`src/games/fps.rs`, and the application input-dispatch layer `src/app.rs`),
together with theorems settling the specification claims.

Modeling conventions:
* Rust `usize`/`u32`/`u64` values are modelled as `ℕ`; `isize` intermediates
  as `ℤ`.
* `f32`/`f64` values are modelled as exact rationals `ℚ`.  Transcendental
  operations (`cos`, `sin`, `sqrt`, `powf`, degree conversion) and the random
  number stream are supplied as oracle parameters in an `Ops` record, since
  none of the claims under study depend on their analytic values; theorems
  quantify over all oracles, so they hold in particular for the real
  `f32` functions.  The irrational constant `TAU` is likewise an oracle field.
* Time (`Instant`, `Duration`) is modelled in whole milliseconds as `ℕ`;
  `saturating_duration_since` is Lean's truncating `ℕ` subtraction.
* Numeric string formatting (`format!("{:.1}", …)`) is an oracle `fmt`
  field: no claim inspects a formatted number.
-/

namespace Arcade

/-- Key codes used by the application (`crossterm::event::KeyCode`), reduced
to the variants the embedded code matches on; every other key code is the
single constructor `other`. -/
inductive KeyCode where
  | char (c : Char)
  | left
  | right
  | up
  | down
  | esc
  | enter
  | backspace
  | other
deriving DecidableEq, Repr

/-- A key event: code plus modifier bitflags (`crossterm::event::KeyEvent`);
`modifiers = 0` models `KeyModifiers::is_empty()`. -/
structure KeyEvent where
  code : KeyCode
  modifiers : ℕ
deriving DecidableEq, Repr

/-- A terminal event (`crossterm::event::Event`): a key press or any other
event (resize, mouse, …). -/
inductive Event where
  | key (k : KeyEvent)
  | nonkey
deriving DecidableEq, Repr

/-! ## Motion parser (`src/games/navigation.rs`) -/

/-- Rust `VimMotionState`: an optional pending numeric count and a pending
modal-prefix flag (the single `g`). -/
structure VimMotionState where
  count : Option ℕ
  pending_g : Bool
deriving DecidableEq, Repr

namespace VimMotionState

/-- Rust `VimMotionState::default()`. -/
def default : VimMotionState := ⟨none, false⟩

/-- Rust `VimMotionState::prefix`. -/
def prefix_ (s : VimMotionState) : Option ℕ := s.count

/-- Rust `VimMotionState::clear`. -/
def clear (_s : VimMotionState) : VimMotionState := ⟨none, false⟩

/-- Rust `VimMotionState::consume_pending`: clears only the pending-`g` flag. -/
def consume_pending (s : VimMotionState) : VimMotionState :=
  { s with pending_g := false }

/-- One clamped step of the cursor along one axis:
`((pos as isize + d).clamp(0, limit.saturating_sub(1) as isize)) as usize`. -/
def clampStep (pos : ℕ) (d : ℤ) (limit : ℕ) : ℕ :=
  (max 0 (min ((pos : ℤ) + d) ((limit - 1 : ℕ) : ℤ))).toNat

/-- The `for _ in 0..steps` loop of `VimMotionState::move_cursor`: repeat the
clamped step, breaking as soon as a repetition would not change the
position. -/
def moveLoop (width height : ℕ) (dx dy : ℤ) : ℕ → ℕ × ℕ → ℕ × ℕ
  | 0, cur => cur
  | steps + 1, cur =>
    let nx := clampStep cur.1 dx width
    let ny := clampStep cur.2 dy height
    if nx = cur.1 ∧ ny = cur.2 then cur
    else moveLoop width height dx dy steps (nx, ny)

/-- Rust `VimMotionState::move_cursor`.  Returns the new parser state and the new
cursor (the Rust code mutates `self.count` via `take()` and the cursor in
place). -/
def move_cursor (s : VimMotionState) (cursor : ℕ × ℕ) (width height : ℕ)
    (dx dy : ℤ) : VimMotionState × (ℕ × ℕ) :=
  if width = 0 ∨ height = 0 then
    ({ s with count := none }, cursor)
  else
    let steps := s.count.getD 1
    ({ s with count := none }, moveLoop width height dx dy steps cursor)

/-- Shared body of the four directional arms of `handle_key`:
`self.consume_pending(); self.move_cursor(cursor, width, height, dx, dy); true`. -/
def moveBranch (s : VimMotionState) (cursor : ℕ × ℕ) (width height : ℕ)
    (dx dy : ℤ) : VimMotionState × (ℕ × ℕ) × Bool :=
  let s1 := s.consume_pending
  let r := s1.move_cursor cursor width height dx dy
  (r.1, r.2, true)

/-- Rust `VimMotionState::handle_key`.  Returns the new parser state, the new
cursor, and whether the key was consumed by the motion grammar. -/
def handle_key (s : VimMotionState) (key : KeyEvent) (cursor : ℕ × ℕ)
    (width height : ℕ) : VimMotionState × (ℕ × ℕ) × Bool :=
  match key.code with
  | .char ch =>
    if ch.isDigit then
      let s1 := { s with pending_g := false }
      let digit := ch.toNat - '0'.toNat
      if digit = 0 ∧ s1.count = none then
        let cursor1 := if 0 < width then (0, cursor.2) else cursor
        ({ s1 with count := none }, cursor1, true)
      else
        let next := s1.count.getD 0 * 10 + digit
        ({ s1 with count := some (min next 999) }, cursor, true)
    else if ch = 'g' then
      if s.pending_g then
        let cursor1 := if 0 < height then (cursor.1, 0) else cursor
        (⟨none, false⟩, cursor1, true)
      else
        ({ s with pending_g := true }, cursor, true)
    else if ch = 'G' then
      let cursor1 := if 0 < height then (cursor.1, height - 1) else cursor
      (⟨none, false⟩, cursor1, true)
    else if ch = '$' then
      let s1 := s.consume_pending
      let cursor1 := if 0 < width then (width - 1, cursor.2) else cursor
      ({ s1 with count := none }, cursor1, true)
    else if ch = 'h' then moveBranch s cursor width height (-1) 0
    else if ch = 'l' then moveBranch s cursor width height 1 0
    else if ch = 'k' then moveBranch s cursor width height 0 (-1)
    else if ch = 'j' then moveBranch s cursor width height 0 1
    else (s.consume_pending, cursor, false)
  | .left => moveBranch s cursor width height (-1) 0
  | .right => moveBranch s cursor width height 1 0
  | .up => moveBranch s cursor width height 0 (-1)
  | .down => moveBranch s cursor width height 0 1
  | _ => (s.consume_pending, cursor, false)

/-- The keys of the motion grammar (the keys `handle_key` consumes): ASCII
digits, `g`, `G`, `$`, and the directional keys (arrows and h/j/k/l). -/
def isMotionGrammarKey (code : KeyCode) : Bool :=
  match code with
  | .char ch =>
    ch.isDigit || ch = 'g' || ch = 'G' || ch = '$' ||
      ch = 'h' || ch = 'l' || ch = 'k' || ch = 'j'
  | .left | .right | .up | .down => true
  | _ => false

/-- The directional keys (arrows and h/j/k/l). -/
def isDirectionKey (code : KeyCode) : Bool :=
  match code with
  | .char ch => ch = 'h' || ch = 'l' || ch = 'k' || ch = 'j'
  | .left | .right | .up | .down => true
  | _ => false

end VimMotionState

/-! ## Game protocol types (`src/games/mod.rs`) -/

/-- Rust `GameKind` (`src/games/mod.rs`).  The checked-in `mod.rs` enum lists the
eight menu games; `src/games/fps.rs` additionally references
`GameKind::Shooter`, so the enum is modelled with that ninth variant
included (the checked-in `mod.rs` is stale relative to `fps.rs`). -/
inductive GameKind where
  | reaction
  | sequence
  | aimTrainer
  | numberMemory
  | verbalMemory
  | chimpTest
  | visualMemory
  | typing
  | shooter
deriving DecidableEq, Repr

/-- Rust `StatRecord`.  The struct literal in `src/app.rs` (`load_persisted_stats`)
lists exactly the fields `label`, `value`, `score`, `recorded_at`, matching
spec §3 (`StatRecord {label, formatted value, numeric score, timestamp}`);
the stale `mod.rs` shows only `label`/`value`. -/
structure StatRecord where
  label : String
  value : String
  score : ℚ
  recorded_at : ℕ
deriving DecidableEq, Repr

/-- Modelled from the spec: `StatRecord::new` is called by `fps.rs` with a
label, a formatted value and a numeric score but is not defined in the
checked-in `games/mod.rs`; per spec §3 a record carries those three fields
plus a timestamp.  The timestamp source is not visible in `src/`, so it is
modelled as the constant `0` (as the legacy-conversion path in `app.rs` also
uses); no claim inspects it. -/
def StatRecord.new (label value : String) (score : ℚ) : StatRecord :=
  ⟨label, value, score, 0⟩

/-- Rust `GameAction` (`src/games/mod.rs`): the result of any module input/tick
step. -/
inductive GameAction where
  | none
  | record (r : StatRecord) (kind : GameKind)
deriving DecidableEq, Repr

/-! ## Shooter simulation (`src/games/fps.rs`) -/

/-- Constants of `src/games/fps.rs` (exact values). -/
def HIT_WINDOW : ℚ := 3 / 2

def CLOSE_THRESHOLD : ℚ := 3 / 4

def BASE_SPAWN_MS : ℕ := 1400

def MIN_SPAWN_MS : ℕ := 350

def ENEMY_BASE_SPEED : ℚ := 7 / 5

def ENEMY_SPEED_STEP : ℚ := 2 / 25

def MAG_CAPACITY : ℕ := 5

def RELOAD_MS : ℕ := 800

/-- Rust `f32::MAX`, exactly: `(2 - 2⁻²³) · 2¹²⁷ = 2¹²⁸ - 2¹⁰⁴`. -/
def F32_MAX : ℚ := 2 ^ 128 - 2 ^ 104

/-- Oracle record for the operations of the Rust float/RNG runtime that the
claims do not depend on analytically: trigonometric functions, square root,
`f64::powf`, degree conversion (`f32::to_degrees`), the constant `TAU`,
numeric formatting, and the random stream (`rand n` is the pair
(angle, distance) drawn for the `n`-th spawn). -/
structure Ops where
  cos : ℚ → ℚ
  sin : ℚ → ℚ
  sqrt : ℚ → ℚ
  pow : ℚ → ℚ → ℚ
  toDeg : ℚ → ℚ
  tau : ℚ
  fmt : ℚ → String
  rand : ℕ → ℚ × ℚ

/-- Truncation toward zero, as Rust `as u64`/float `%` use. -/
def truncQ (q : ℚ) : ℤ :=
  if 0 ≤ q then ⌊q⌋ else ⌈q⌉

/-- Rust float remainder `a % b`: `a - b * trunc (a / b)` (sign of the
dividend). -/
def rustRem (a b : ℚ) : ℚ :=
  a - b * (truncQ (a / b) : ℚ)

/-- Rust `Vec2` (`fps.rs`). -/
structure Vec2 where
  x : ℚ
  y : ℚ
deriving DecidableEq, Repr

namespace Vec2

/-- Rust `Vec2::default()`. -/
def zero : Vec2 := ⟨0, 0⟩

/-- Rust `Vec2::distance`: `sqrt ((x₁-x₂)² + (y₁-y₂)²)`, with the square root
taken through the oracle. -/
def distance (ops : Ops) (a b : Vec2) : ℚ :=
  ops.sqrt ((a.x - b.x) ^ 2 + (a.y - b.y) ^ 2)

/-- Rust `Vec2::rotate`: the source computes `cos angle` / `sin angle` and forms
the usual rotation; the trigonometric values come from the oracle. -/
def rotate (ops : Ops) (v : Vec2) (angle : ℚ) : Vec2 :=
  let c := ops.cos angle
  let s := ops.sin angle
  ⟨v.x * c - v.y * s, v.x * s + v.y * c⟩

end Vec2

/-- Rust `Enemy` (`fps.rs`). -/
structure Enemy where
  pos : Vec2
  speed : ℚ
deriving DecidableEq, Repr

namespace Enemy

/-- Rust `Enemy::update`: normalize the offset to the target (distance clamped
below by `0.0001`), advance `y` by `ny · speed · dt`, and snap `x` onto the
target. -/
def update (ops : Ops) (target : Vec2) (dt : ℚ) (e : Enemy) : Enemy :=
  let dy := target.y - e.pos.y
  let dx := target.x - e.pos.x
  let distance := max (ops.sqrt (dx * dx + dy * dy)) (1 / 10000)
  let ny := dy / distance
  { e with pos := ⟨target.x, e.pos.y + ny * e.speed * dt⟩ }

/-- Rust `Enemy::relative_to`. -/
def relative_to (e : Enemy) (player : Vec2) : Vec2 :=
  ⟨e.pos.x - player.x, e.pos.y - player.y⟩

end Enemy

/-- Rust `ShooterState` (`fps.rs`).  The `StdRng` field is replaced by the index
into the oracle random stream. -/
structure ShooterState where
  rngIdx : ℕ
  enemies : List Enemy
  player : Vec2
  alive : Bool
  kills : ℕ
  start_time : ℕ
  last_tick : ℕ
  last_spawn : ℕ
  status : String
  best_survival : Option ℕ
  heading : ℚ
  last_fire : Option ℕ
  frozen_elapsed : Option ℕ
  shots_remaining : ℕ
  reloading_until : Option ℕ

namespace ShooterState

/-- Rust `ShooterState::new` (`Instant::now()` is the `now` argument). -/
def new (now : ℕ) : ShooterState where
  rngIdx := 0
  enemies := []
  player := Vec2.zero
  alive := true
  kills := 0
  start_time := now
  last_tick := now
  last_spawn := now
  status := "Rotate with A/D · h/l · ←/→ · space fires"
  best_survival := none
  heading := 0
  last_fire := none
  frozen_elapsed := none
  shots_remaining := MAG_CAPACITY
  reloading_until := none

/-- Rust `ShooterState::elapsed` (milliseconds; `saturating_duration_since` is
truncating `ℕ` subtraction). -/
def elapsedMs (st : ShooterState) (now : ℕ) : ℕ :=
  match st.frozen_elapsed with
  | some frozen => frozen
  | none => now - st.start_time

/-- Rust `ShooterState::spawn_interval`: `max(BASE_SPAWN × 0.92^(kills/4), MIN_SPAWN)`
milliseconds, truncated to an integer (`as u64`).  The result is always at
least `MIN_SPAWN_MS = 350`. -/
def spawn_interval (ops : Ops) (st : ShooterState) : ℕ :=
  let factor := ops.pow (92 / 100) ((st.kills : ℚ) / 4)
  let ms := max ((BASE_SPAWN_MS : ℚ) * factor) (MIN_SPAWN_MS : ℚ)
  (truncQ ms).toNat

/-- Rust `ShooterState::spawn_enemy`: draw (angle, distance) from the random
stream, place the enemy on the circle of that radius around the player,
with speed growing linearly in the kill count. -/
def spawn_enemy (ops : Ops) (st : ShooterState) : ShooterState :=
  let angle := (ops.rand st.rngIdx).1
  let distance := (ops.rand st.rngIdx).2
  let speed := ENEMY_BASE_SPEED + ENEMY_SPEED_STEP * (st.kills : ℚ)
  { st with
    rngIdx := st.rngIdx + 1
    enemies := st.enemies ++
      [⟨⟨st.player.x + ops.cos angle * distance,
         st.player.y + ops.sin angle * distance⟩, speed⟩] }

/-- The `while` loop of `ShooterState::maybe_spawn`: catch up on every
elapsed spawn boundary.  The loop guard carries `0 < interval` for
termination; the computed interval is always ≥ 350, so the guard matches
the source. -/
def spawnLoop (ops : Ops) (interval now : ℕ) (st : ShooterState) :
    ShooterState :=
  if _h : 0 < interval ∧ interval ≤ now - st.last_spawn then
    spawnLoop ops interval now
      (spawn_enemy ops { st with last_spawn := st.last_spawn + interval })
  else st
termination_by now - st.last_spawn
decreasing_by
  simp only [spawn_enemy]
  omega

/-- Rust `ShooterState::maybe_spawn`. -/
def maybe_spawn (ops : Ops) (now : ℕ) (st : ShooterState) : ShooterState :=
  spawnLoop ops (spawn_interval ops st) now st

/-- Wrapping of the heading into `[0, TAU)` as `rotate_camera` performs it:
float remainder, then one conditional addition of `TAU`. -/
def wrapAngle (tau h : ℚ) : ℚ :=
  let r := rustRem h tau
  if r < 0 then r + tau else r

/-- Rust `ShooterState::heading_degrees`. -/
def heading_degrees (ops : Ops) (st : ShooterState) : ℚ :=
  let deg := rustRem (ops.toDeg st.heading) 360
  if deg < 0 then deg + 360 else deg

/-- Rust `ShooterState::rotate_camera`. -/
def rotate_camera (ops : Ops) (delta : ℚ) (st : ShooterState) :
    ShooterState :=
  if st.alive = false then st
  else
    let st1 := { st with heading := wrapAngle ops.tau (st.heading + delta) }
    { st1 with
      status := "Heading " ++ ops.fmt (heading_degrees ops st1) ++ "°" }

/-- Camera-space position of an enemy: its position relative to the player,
rotated by the negative of the current heading. -/
def camOf (ops : Ops) (st : ShooterState) (e : Enemy) : Vec2 :=
  (e.relative_to st.player).rotate ops (-st.heading)

/-- The scan loop of `ShooterState::fire`: fold over the enumerated enemy
list keeping the smallest forward coordinate seen so far (strict `<`, so the
first index attaining the minimum is kept).  `f` is the camera transform. -/
def findHit (f : Enemy → Vec2) : List Enemy → ℕ → ℚ → Option ℕ →
    ℚ × Option ℕ
  | [], _, best, hit => (best, hit)
  | e :: rest, i, best, hit =>
    let cam := f e
    if cam.y ≤ 1 / 10 then findHit f rest (i + 1) best hit
    else if |cam.x| ≤ HIT_WINDOW then
      if cam.y < best then findHit f rest (i + 1) cam.y (some i)
      else findHit f rest (i + 1) best hit
    else findHit f rest (i + 1) best hit

/-- Rust `Vec::swap_remove`: replace the element at `i` with the last element and
pop the last. -/
def swapRemove (l : List Enemy) (i : ℕ) : List Enemy :=
  (l.set i (l.getLast?.getD ⟨Vec2.zero, 0⟩)).dropLast

/-- Rust `ShooterState::fire` (`Instant::now()` is the `now` argument). -/
def fire (ops : Ops) (now : ℕ) (st : ShooterState) : ShooterState :=
  if st.alive = false then st
  else
    let afterGate : Option ShooterState :=
      match st.reloading_until with
      | some ready_at =>
        if now < ready_at then none
        else some { st with reloading_until := none }
      | none => some st
    match afterGate with
    | none => { st with status := "Reloading..." }
    | some st1 =>
      if st1.shots_remaining = 0 then
        { st1 with
          reloading_until := some (now + RELOAD_MS)
          status := "Reloading..." }
      else
        let st2 := { st1 with
          last_fire := some now
          shots_remaining := st1.shots_remaining - 1 }
        match (findHit (camOf ops st2) st2.enemies 0 F32_MAX none).2 with
        | some idx =>
          { st2 with
            enemies := swapRemove st2.enemies idx
            kills := st2.kills + 1
            status := "Direct hit!" }
        | none => { st2 with status := "Missed — keep them centered" }

/-- Rust `ShooterState::handle_failure`: freeze the elapsed time, leave the alive
state, and emit a record exactly when the frozen time strictly exceeds the
previous best (or none exists). -/
def handle_failure (ops : Ops) (now : ℕ) (st : ShooterState) :
    ShooterState × GameAction :=
  if st.alive = false then (st, .none)
  else
    let elapsed := st.elapsedMs now
    let secs : ℚ := (elapsed : ℚ) / 1000
    let st1 := { st with
      alive := false
      frozen_elapsed := some elapsed
      status := "Overrun after " ++ ops.fmt secs ++ "s" }
    if (st.best_survival.map fun best => decide (best < elapsed)).getD true then
      ({ st1 with best_survival := some elapsed },
        .record (StatRecord.new "Survival" (ops.fmt secs ++ "s") secs)
          .shooter)
    else (st1, .none)

/-- Rust `ShooterState::restart` (`Instant::now()` is the `now` argument). -/
def restart (now : ℕ) (st : ShooterState) : ShooterState :=
  { st with
    enemies := []
    player := Vec2.zero
    alive := true
    kills := 0
    start_time := now
    last_tick := now
    last_spawn := now
    status := "Rotate with A/D · h/l · ←/→ · space fires"
    heading := 0
    last_fire := none
    frozen_elapsed := none
    shots_remaining := MAG_CAPACITY
    reloading_until := none }

/-- The reload-deadline check at the top of `tick_internal`: refill the
magazine exactly when a reload is pending and the tick time is at or past
the deadline. -/
def reloadCheck (now : ℕ) (st : ShooterState) : ShooterState :=
  match st.reloading_until with
  | some until_ =>
    if until_ ≤ now then
      { st with
        reloading_until := none
        shots_remaining := MAG_CAPACITY
        status := "Magazine refilled" }
    else st
  | none => st

/-- The enemy-advance phase of `tick_internal`. -/
def updateEnemies (ops : Ops) (dt : ℚ) (st : ShooterState) : ShooterState :=
  { st with enemies := st.enemies.map (Enemy.update ops st.player dt) }

/-- Whether some enemy has come within the proximity threshold of the
player. -/
def anyClose (ops : Ops) (st : ShooterState) : Bool :=
  st.enemies.any fun e =>
    decide (Vec2.distance ops e.pos st.player < CLOSE_THRESHOLD)

/-- The `retain` pruning at the bottom of `tick_internal` (kept faithfully;
it is reached only when no enemy is close or the player is down, so it
never removes anything). -/
def retainEnemies (ops : Ops) (st : ShooterState) : ShooterState :=
  { st with
    enemies := st.enemies.filter fun e =>
      decide (CLOSE_THRESHOLD ≤ Vec2.distance ops e.pos st.player) ||
        !st.alive }

/-- Rust `ShooterState::tick_internal`.  `dt` is the seconds since the previous
tick; the early `return Some(...)` on a proximity breach skips the final
`retain`. -/
def tick_internal (ops : Ops) (now : ℕ) (st : ShooterState) :
    ShooterState × Option GameAction :=
  let dt : ℚ := ((now - st.last_tick : ℕ) : ℚ) / 1000
  let st0 := { st with last_tick := now }
  if st0.alive then
    let st1 := reloadCheck now st0
    let st2 := maybe_spawn ops now st1
    let st3 := updateEnemies ops dt st2
    if anyClose ops st3 then
      let r := handle_failure ops now st3
      (r.1, some r.2)
    else (retainEnemies ops st3, none)
  else (retainEnemies ops st0, none)

/-- Rust `ShooterState::handle_tick`. -/
def handle_tick (ops : Ops) (now : ℕ) (st : ShooterState) :
    ShooterState × GameAction :=
  match tick_internal ops now st with
  | (st1, some action) => (st1, action)
  | (st1, none) => (st1, .none)

/-- Rust `ShooterState::handle_event` (fps.rs); `Instant::now()` inside `fire`
and `restart` is the `now` argument.  Always returns `GameAction::None`.
The Rust `match` arms carry disjoint patterns, so they are rendered as an
equivalent chain of character tests (`TURN_STEP = TAU / 48`). -/
def handle_event (ops : Ops) (now : ℕ) (event : Event) (st : ShooterState) :
    ShooterState × GameAction :=
  match event with
  | .key key =>
    let st1 :=
      match key.code with
      | .char c =>
        if c = 'h' then rotate_camera ops (-(ops.tau / 48)) st
        else if c = 'l' then rotate_camera ops (ops.tau / 48) st
        else if c = ' ' then
          if st.alive then fire ops now st else restart now st
        else if c = 'a' then rotate_camera ops (-(ops.tau / 48)) st
        else if c = 'A' then rotate_camera ops (-(ops.tau / 48)) st
        else if c = 'd' then rotate_camera ops (ops.tau / 48) st
        else if c = 'D' then rotate_camera ops (ops.tau / 48) st
        else if c = 'r' then
          if st.alive = false then restart now st else st
        else st
      | .left => rotate_camera ops (-(ops.tau / 48)) st
      | .right => rotate_camera ops (ops.tau / 48) st
      | .enter => if st.alive then fire ops now st else restart now st
      | _ => st
    (st1, .none)
  | .nonkey => (st, .none)

/-- Default enemy value used for `getD` indexing in theorem statements. -/
def dummyEnemy : Enemy := ⟨Vec2.zero, 0⟩

/-- The hit-candidate predicate of the `fire` scan: forward coordinate
beyond the `0.1` dead-zone, lateral coordinate within the hit window, and
forward coordinate strictly below the running best (initially `f32::MAX`,
which every finite `f32` camera coordinate satisfies). -/
def isCandidate (f : Enemy → Vec2) (best : ℚ) (e : Enemy) : Prop :=
  1 / 10 < (f e).y ∧ |(f e).x| ≤ HIT_WINDOW ∧ (f e).y < best

/-- The state after the movement phases of a tick (reload check, spawn
catch-up, enemy advance), as `tick_internal` computes it while alive. -/
def tickMoved (ops : Ops) (now : ℕ) (st : ShooterState) : ShooterState :=
  updateEnemies ops (((now - st.last_tick : ℕ) : ℚ) / 1000)
    (maybe_spawn ops now (reloadCheck now { st with last_tick := now }))

/-- The `ShooterState` state invariant of the claim set: the magazine count
lies in `[0, capacity]` (the lower bound holds by the `ℕ` model of `u32`),
the heading lies in `[0, TAU)`, and a pending reload implies an empty
magazine (the magazine is below capacity exactly because it is empty from
the empty-magazine fire attempt that started the reload). -/
def Invariant (ops : Ops) (st : ShooterState) : Prop :=
  st.shots_remaining ≤ MAG_CAPACITY ∧
  0 ≤ st.heading ∧ st.heading < ops.tau ∧
  (st.reloading_until.isSome = true → st.shots_remaining = 0)

end ShooterState

/-! ## Application loop state and input dispatch (`src/app.rs`)

The application is modelled polymorphically over the active Game Module
type `M` and the menu type `Menu`, with their operations supplied as
records (`ModuleOps`, `MenuOps`): this is exactly the dispatcher contract
of spec §4.2, and lets the dispatch-layer claims be settled without
embedding all eight game modules.  The `HashMap` of statistics is an
association list; persistence (`persist_stats`) is an external I/O side
effect with no core-state change and is omitted. -/

/-- Rust `HISTORY_LIMIT` (`src/app.rs`). -/
def HISTORY_LIMIT : ℕ := 64

/-- A toast notification; `expires_at = now + 3000` ms (`Toast::new`). -/
structure Toast where
  message : String
  expires_at : ℕ
deriving DecidableEq, Repr

/-- Rust `Toast::new` (`Instant::now()` is the `now` argument). -/
def Toast.new (message : String) (now : ℕ) : Toast :=
  ⟨message, now + 3000⟩

/-- Operations of the wrapped Game Module (the `GameState` dispatcher of
`src/games/mod.rs`, spec §4.2): construction by kind, event routing, tick
routing, and the kind discriminant. -/
structure ModuleOps (M : Type) where
  newGame : GameKind → M
  handleEvent : M → Event → M × GameAction
  handleTick : M → ℕ → M × GameAction
  kindOf : M → GameKind
  kindTitle : GameKind → String

/-- Operations of the menu selector (`src/menu.rs` interface). -/
structure MenuOps (Menu : Type) where
  next : Menu → Menu
  previous : Menu → Menu
  selectedKind : Menu → GameKind

/-- Rust `App` (`src/app.rs`): menu, the optionally active module, per-kind
statistics history, quit flag, toast, command palette (`Some buffer` when
open), and help visibility.  The `stats_path` field is persistence-only and
omitted. -/
structure App (M Menu : Type) where
  menu : Menu
  active : Option M
  stats : List (GameKind × List StatRecord)
  should_quit : Bool
  toast : Option Toast
  command : Option String
  show_help : Bool

namespace App

variable {M Menu : Type}

/-- Replace (or insert) the history of one kind in the stats association
list (`HashMap::entry(kind).or_default()` + write-back). -/
def setStats (stats : List (GameKind × List StatRecord)) (kind : GameKind)
    (hist : List StatRecord) : List (GameKind × List StatRecord) :=
  if stats.any (fun p => p.1 = kind) then
    stats.map fun p => if p.1 = kind then (kind, hist) else p
  else stats ++ [(kind, hist)]

/-- Current history of one kind (empty when absent). -/
def getStats (stats : List (GameKind × List StatRecord)) (kind : GameKind) :
    List StatRecord :=
  (stats.lookup kind).getD []

/-- Rust `App::handle_game_action`: append the record to the kind's history and
drain the front down to `HISTORY_LIMIT`. -/
def handle_game_action (st : App M Menu) (action : GameAction) : App M Menu :=
  match action with
  | .none => st
  | .record r kind =>
    let hist := getStats st.stats kind ++ [r]
    let hist := hist.drop (hist.length - HISTORY_LIMIT)
    { st with stats := setStats st.stats kind hist }

/-- Rust `char::is_control`: the Unicode `Cc` category,
`U+0000–U+001F` and `U+007F–U+009F`. -/
def isControl (c : Char) : Bool :=
  c.toNat < 32 || (127 ≤ c.toNat && c.toNat ≤ 159)

/-- Rust `App::execute_command` (`Instant::now()` inside `Toast::new` is the
`now` argument). -/
def execute_command (mops : ModuleOps M) (now : ℕ) (buffer : String)
    (st : App M Menu) : App M Menu :=
  if buffer = "qa" ∨ buffer = "quitall" then { st with should_quit := true }
  else if buffer = "q" ∨ buffer = "quit" then
    if st.active.isSome then
      { st with active := none, toast := some (Toast.new "Returned to menu" now) }
    else { st with should_quit := true }
  else if buffer = "menu" then
    { st with active := none, toast := some (Toast.new "Returned to menu" now) }
  else if buffer = "restart" then
    match st.active with
    | some m =>
      let kind := mops.kindOf m
      { st with
        active := some (mops.newGame kind)
        toast := some (Toast.new ("Restarted " ++ mops.kindTitle kind) now) }
    | none => st
  else if buffer = "help" then
    let shown := !st.show_help
    let state := if shown then "shown" else "hidden"
    { st with
      show_help := shown
      toast := some (Toast.new ("Controls " ++ state) now) }
  else if buffer = "" then st
  else
    { st with toast := some (Toast.new ("Unknown command :" ++ buffer) now) }

/-- Rust `App::handle_command_key`: consumes every key while the palette is
open (returns whether it consumed the key). -/
def handle_command_key (mops : ModuleOps M) (now : ℕ) (key : KeyEvent)
    (st : App M Menu) : App M Menu × Bool :=
  match st.command with
  | some buffer =>
    match key.code with
    | .esc => ({ st with command := none }, true)
    | .enter =>
      let trimmed := buffer.trim
      (execute_command mops now trimmed { st with command := none }, true)
    | .backspace => ({ st with command := some (buffer.dropRight 1) }, true)
    | .char ch =>
      if isControl ch then (st, true)
      else ({ st with command := some (buffer.push ch) }, true)
    | _ => (st, true)
  | none => (st, false)

/-- Rust `App::launch_selected_game`. -/
def launch_selected_game (mops : ModuleOps M) (menuOps : MenuOps Menu)
    (now : ℕ) (st : App M Menu) : App M Menu :=
  let kind := menuOps.selectedKind st.menu
  { st with
    active := some (mops.newGame kind)
    toast := some (Toast.new ("Starting " ++ mops.kindTitle kind) now) }

/-- Rust `App::handle_menu_key`. -/
def handle_menu_key (mops : ModuleOps M) (menuOps : MenuOps Menu) (now : ℕ)
    (key : KeyEvent) (st : App M Menu) : App M Menu :=
  match key.code with
  | .down => { st with menu := menuOps.next st.menu }
  | .char 'j' => { st with menu := menuOps.next st.menu }
  | .up => { st with menu := menuOps.previous st.menu }
  | .char 'k' => { st with menu := menuOps.previous st.menu }
  | .enter => launch_selected_game mops menuOps now st
  | .char 'l' => launch_selected_game mops menuOps now st
  | .char 'h' =>
    { st with toast := some (Toast.new "Use enter to launch a game" now) }
  | _ => st

/-- Rust `App::handle_key`: the fixed priority chain — open palette first, then
the `:` opener, then the active module, then the menu. -/
def handle_key (mops : ModuleOps M) (menuOps : MenuOps Menu) (now : ℕ)
    (key : KeyEvent) (st : App M Menu) : App M Menu :=
  let r := handle_command_key mops now key st
  if r.2 then r.1
  else if key.code = .char ':' ∧ key.modifiers = 0 then
    { st with command := some "" }
  else
    match st.active with
    | some m =>
      let e := mops.handleEvent m (.key key)
      handle_game_action { st with active := some e.1 } e.2
    | none => handle_menu_key mops menuOps now key st

end App

/-- Trivial Game-Module collaborator over `Unit`, used to instantiate the
dispatch-layer theorems at concrete inputs. -/
def unitModuleOps : ModuleOps Unit :=
  ⟨fun _ => (), fun _ _ => ((), .none), fun _ _ => ((), .none),
    fun _ => .reaction, fun _ => ""⟩

/-- Trivial menu collaborator over `Unit`. -/
def unitMenuOps : MenuOps Unit :=
  ⟨fun _ => (), fun _ => (), fun _ => .reaction⟩

/-- A concrete oracle instance used to instantiate the shooter theorems at
concrete inputs. -/
def sampleOps : Ops where
  cos := fun _ => 1
  sin := fun _ => 0
  sqrt := fun q => q
  pow := fun _ _ => 1
  toDeg := fun q => q
  tau := 7
  fmt := fun _ => ""
  rand := fun _ => (0, 10)

/-- A concrete shooter state with three enemies: two in the firing line
(forward coordinates 5 and 3) and one far off-axis. -/
def sampleShooter : ShooterState :=
  { ShooterState.new 0 with
      enemies := [⟨⟨0, 5⟩, 1⟩, ⟨⟨0, 3⟩, 1⟩, ⟨⟨9, 3⟩, 1⟩] }

/-- A concrete shooter state with one enemy already within the proximity
threshold. -/
def closeShooter : ShooterState :=
  { ShooterState.new 0 with enemies := [⟨⟨0, 1 / 2⟩, 1⟩] }

/-! ## Helper lemmas -/

namespace ShooterState

lemma spawnLoop_fields (ops : Ops) (interval now : ℕ) (st : ShooterState) :
    (spawnLoop ops interval now st).alive = st.alive ∧
    (spawnLoop ops interval now st).kills = st.kills ∧
    (spawnLoop ops interval now st).shots_remaining = st.shots_remaining ∧
    (spawnLoop ops interval now st).reloading_until = st.reloading_until ∧
    (spawnLoop ops interval now st).heading = st.heading ∧
    (spawnLoop ops interval now st).best_survival = st.best_survival ∧
    (spawnLoop ops interval now st).start_time = st.start_time ∧
    (spawnLoop ops interval now st).frozen_elapsed = st.frozen_elapsed ∧
    (spawnLoop ops interval now st).last_tick = st.last_tick ∧
    (spawnLoop ops interval now st).player = st.player ∧
    (spawnLoop ops interval now st).status = st.status := by
  induction st using spawnLoop.induct ops interval now with
  | case1 x hcond ih =>
    rw [spawnLoop, dif_pos hcond]
    simpa [spawn_enemy] using ih
  | case2 x hcond =>
    rw [spawnLoop, dif_neg hcond]
    simp

lemma maybe_spawn_fields (ops : Ops) (now : ℕ) (st : ShooterState) :
    (maybe_spawn ops now st).alive = st.alive ∧
    (maybe_spawn ops now st).kills = st.kills ∧
    (maybe_spawn ops now st).shots_remaining = st.shots_remaining ∧
    (maybe_spawn ops now st).reloading_until = st.reloading_until ∧
    (maybe_spawn ops now st).heading = st.heading ∧
    (maybe_spawn ops now st).best_survival = st.best_survival ∧
    (maybe_spawn ops now st).start_time = st.start_time ∧
    (maybe_spawn ops now st).frozen_elapsed = st.frozen_elapsed ∧
    (maybe_spawn ops now st).last_tick = st.last_tick ∧
    (maybe_spawn ops now st).player = st.player ∧
    (maybe_spawn ops now st).status = st.status :=
  spawnLoop_fields ops (spawn_interval ops st) now st

lemma maybe_spawn_alive (ops : Ops) (now : ℕ) (st : ShooterState) :
    (maybe_spawn ops now st).alive = st.alive :=
  (maybe_spawn_fields ops now st).1

lemma maybe_spawn_kills (ops : Ops) (now : ℕ) (st : ShooterState) :
    (maybe_spawn ops now st).kills = st.kills :=
  (maybe_spawn_fields ops now st).2.1

lemma maybe_spawn_shots (ops : Ops) (now : ℕ) (st : ShooterState) :
    (maybe_spawn ops now st).shots_remaining = st.shots_remaining :=
  (maybe_spawn_fields ops now st).2.2.1

lemma maybe_spawn_reloading (ops : Ops) (now : ℕ) (st : ShooterState) :
    (maybe_spawn ops now st).reloading_until = st.reloading_until :=
  (maybe_spawn_fields ops now st).2.2.2.1

lemma maybe_spawn_heading (ops : Ops) (now : ℕ) (st : ShooterState) :
    (maybe_spawn ops now st).heading = st.heading :=
  (maybe_spawn_fields ops now st).2.2.2.2.1

lemma maybe_spawn_best (ops : Ops) (now : ℕ) (st : ShooterState) :
    (maybe_spawn ops now st).best_survival = st.best_survival :=
  (maybe_spawn_fields ops now st).2.2.2.2.2.1

lemma maybe_spawn_start (ops : Ops) (now : ℕ) (st : ShooterState) :
    (maybe_spawn ops now st).start_time = st.start_time :=
  (maybe_spawn_fields ops now st).2.2.2.2.2.2.1

lemma maybe_spawn_frozen (ops : Ops) (now : ℕ) (st : ShooterState) :
    (maybe_spawn ops now st).frozen_elapsed = st.frozen_elapsed :=
  (maybe_spawn_fields ops now st).2.2.2.2.2.2.2.1

lemma maybe_spawn_last_tick (ops : Ops) (now : ℕ) (st : ShooterState) :
    (maybe_spawn ops now st).last_tick = st.last_tick :=
  (maybe_spawn_fields ops now st).2.2.2.2.2.2.2.2.1

lemma maybe_spawn_player (ops : Ops) (now : ℕ) (st : ShooterState) :
    (maybe_spawn ops now st).player = st.player :=
  (maybe_spawn_fields ops now st).2.2.2.2.2.2.2.2.2.1

lemma handle_tick_fst (ops : Ops) (now : ℕ) (st : ShooterState) :
    (handle_tick ops now st).1 = (tick_internal ops now st).1 := by
  unfold handle_tick
  rcases h : tick_internal ops now st with ⟨st1, a⟩
  cases a <;> simp

lemma tick_internal_alive_eq (ops : Ops) (now : ℕ) (st : ShooterState)
    (ha : st.alive = true) :
    tick_internal ops now st =
      if anyClose ops (tickMoved ops now st) then
        ((handle_failure ops now (tickMoved ops now st)).1,
          some (handle_failure ops now (tickMoved ops now st)).2)
      else (retainEnemies ops (tickMoved ops now st), none) := by
  unfold tick_internal tickMoved
  simp [ha]

lemma reloadCheck_alive (now : ℕ) (st : ShooterState) :
    (reloadCheck now st).alive = st.alive := by
  unfold reloadCheck
  rcases h : st.reloading_until with _ | u
  · simp
  · simp only
    split <;> simp

lemma reloadCheck_kills (now : ℕ) (st : ShooterState) :
    (reloadCheck now st).kills = st.kills := by
  unfold reloadCheck
  rcases h : st.reloading_until with _ | u
  · simp
  · simp only
    split <;> simp

lemma reloadCheck_heading (now : ℕ) (st : ShooterState) :
    (reloadCheck now st).heading = st.heading := by
  unfold reloadCheck
  rcases h : st.reloading_until with _ | u
  · simp
  · simp only
    split <;> simp

lemma reloadCheck_best (now : ℕ) (st : ShooterState) :
    (reloadCheck now st).best_survival = st.best_survival := by
  unfold reloadCheck
  rcases h : st.reloading_until with _ | u
  · simp
  · simp only
    split <;> simp

lemma reloadCheck_start (now : ℕ) (st : ShooterState) :
    (reloadCheck now st).start_time = st.start_time := by
  unfold reloadCheck
  rcases h : st.reloading_until with _ | u
  · simp
  · simp only
    split <;> simp

lemma reloadCheck_frozen (now : ℕ) (st : ShooterState) :
    (reloadCheck now st).frozen_elapsed = st.frozen_elapsed := by
  unfold reloadCheck
  rcases h : st.reloading_until with _ | u
  · simp
  · simp only
    split <;> simp

lemma reloadCheck_last_tick (now : ℕ) (st : ShooterState) :
    (reloadCheck now st).last_tick = st.last_tick := by
  unfold reloadCheck
  rcases h : st.reloading_until with _ | u
  · simp
  · simp only
    split <;> simp

lemma reloadCheck_player (now : ℕ) (st : ShooterState) :
    (reloadCheck now st).player = st.player := by
  unfold reloadCheck
  rcases h : st.reloading_until with _ | u
  · simp
  · simp only
    split <;> simp

lemma reloadCheck_enemies (now : ℕ) (st : ShooterState) :
    (reloadCheck now st).enemies = st.enemies := by
  unfold reloadCheck
  rcases h : st.reloading_until with _ | u
  · simp
  · simp only
    split <;> simp

lemma tickMoved_fields (ops : Ops) (now : ℕ) (st : ShooterState) :
    (tickMoved ops now st).alive = st.alive ∧
    (tickMoved ops now st).kills = st.kills ∧
    (tickMoved ops now st).heading = st.heading ∧
    (tickMoved ops now st).best_survival = st.best_survival ∧
    (tickMoved ops now st).start_time = st.start_time ∧
    (tickMoved ops now st).frozen_elapsed = st.frozen_elapsed ∧
    (tickMoved ops now st).last_tick = now := by
  unfold tickMoved updateEnemies
  simp [maybe_spawn_alive, maybe_spawn_kills, maybe_spawn_heading,
    maybe_spawn_best, maybe_spawn_start, maybe_spawn_frozen,
    maybe_spawn_last_tick, reloadCheck_alive, reloadCheck_kills,
    reloadCheck_heading, reloadCheck_best, reloadCheck_start,
    reloadCheck_frozen, reloadCheck_last_tick]

lemma tickMoved_shots_reloading (ops : Ops) (now : ℕ) (st : ShooterState) :
    (tickMoved ops now st).shots_remaining =
      (reloadCheck now st).shots_remaining ∧
    (tickMoved ops now st).reloading_until =
      (reloadCheck now st).reloading_until := by
  unfold tickMoved updateEnemies
  have heq : reloadCheck now { st with last_tick := now } =
      { reloadCheck now st with last_tick := now } := by
    unfold reloadCheck
    rcases h : st.reloading_until with _ | u
    · simp [h]
    · simp only [h]
      split <;> simp [h]
  rw [heq]
  simp [maybe_spawn_shots, maybe_spawn_reloading]

lemma handle_failure_eq_pos (ops : Ops) (now : ℕ) (st : ShooterState)
    (ha : st.alive = true)
    (hb : (Option.map (fun best => decide (best < st.elapsedMs now))
      st.best_survival).getD true = true) :
    handle_failure ops now st =
      ({ st with
          alive := false
          frozen_elapsed := some (st.elapsedMs now)
          status :=
            "Overrun after " ++ ops.fmt ((st.elapsedMs now : ℚ) / 1000) ++ "s"
          best_survival := some (st.elapsedMs now) },
        .record
          (StatRecord.new "Survival"
            (ops.fmt ((st.elapsedMs now : ℚ) / 1000) ++ "s")
            ((st.elapsedMs now : ℚ) / 1000))
          .shooter) := by
  unfold handle_failure
  rw [if_neg (by simp [ha])]
  simp [hb]

lemma handle_failure_eq_neg (ops : Ops) (now : ℕ) (st : ShooterState)
    (ha : st.alive = true)
    (hb : ¬ (Option.map (fun best => decide (best < st.elapsedMs now))
      st.best_survival).getD true = true) :
    handle_failure ops now st =
      ({ st with
          alive := false
          frozen_elapsed := some (st.elapsedMs now)
          status :=
            "Overrun after " ++ ops.fmt ((st.elapsedMs now : ℚ) / 1000) ++ "s" },
        .none) := by
  unfold handle_failure
  rw [if_neg (by simp [ha])]
  simp [hb]

lemma handle_tick_close (ops : Ops) (now : ℕ) (st : ShooterState)
    (ha : st.alive = true)
    (hc : anyClose ops (tickMoved ops now st) = true) :
    handle_tick ops now st = handle_failure ops now (tickMoved ops now st) := by
  unfold handle_tick
  rw [tick_internal_alive_eq ops now st ha]
  simp [hc]

lemma handle_tick_noclose (ops : Ops) (now : ℕ) (st : ShooterState)
    (ha : st.alive = true)
    (hc : anyClose ops (tickMoved ops now st) = false) :
    handle_tick ops now st =
      (retainEnemies ops (tickMoved ops now st), GameAction.none) := by
  unfold handle_tick
  rw [tick_internal_alive_eq ops now st ha]
  simp [hc]

lemma handle_tick_dead (ops : Ops) (now : ℕ) (st : ShooterState)
    (ha : st.alive = false) :
    handle_tick ops now st =
      (retainEnemies ops { st with last_tick := now }, GameAction.none) := by
  unfold handle_tick tick_internal
  simp [ha]

lemma handle_failure_alive (ops : Ops) (now : ℕ) (st : ShooterState)
    (ha : st.alive = true) : (handle_failure ops now st).1.alive = false := by
  unfold handle_failure
  rw [if_neg (by simp [ha])]
  by_cases hb :
      (Option.map (fun best => decide (best < st.elapsedMs now))
        st.best_survival).getD true = true
  · simp [hb]
  · simp [hb]

lemma handle_failure_fields (ops : Ops) (now : ℕ) (st : ShooterState) :
    (handle_failure ops now st).1.shots_remaining = st.shots_remaining ∧
    (handle_failure ops now st).1.reloading_until = st.reloading_until ∧
    (handle_failure ops now st).1.heading = st.heading ∧
    (handle_failure ops now st).1.kills = st.kills ∧
    (handle_failure ops now st).1.enemies = st.enemies := by
  unfold handle_failure
  by_cases ha : st.alive = false
  · simp [ha]
  · rw [if_neg ha]
    by_cases hb :
        (Option.map (fun best => decide (best < st.elapsedMs now))
          st.best_survival).getD true = true
    · simp [hb]
    · simp [hb]

lemma rustRem_bounds (h tau : ℚ) (ht : 0 < tau) :
    -tau < rustRem h tau ∧ rustRem h tau < tau := by
  unfold rustRem truncQ
  have htau : tau ≠ 0 := ne_of_gt ht
  have hhq : h = tau * (h / tau) := by field_simp
  by_cases h0 : 0 ≤ h / tau
  · rw [if_pos h0]
    have h1 : ((⌊h / tau⌋ : ℤ) : ℚ) ≤ h / tau := Int.floor_le _
    have h2 : h / tau - 1 < ((⌊h / tau⌋ : ℤ) : ℚ) := Int.sub_one_lt_floor _
    constructor <;> nlinarith [hhq]
  · rw [if_neg h0]
    have h1 : h / tau ≤ ((⌈h / tau⌉ : ℤ) : ℚ) := Int.le_ceil _
    have h2 : ((⌈h / tau⌉ : ℤ) : ℚ) < h / tau + 1 := Int.ceil_lt_add_one _
    constructor <;> nlinarith [hhq]

lemma wrapAngle_mem (tau h : ℚ) (ht : 0 < tau) :
    0 ≤ wrapAngle tau h ∧ wrapAngle tau h < tau := by
  obtain ⟨hl, hr⟩ := rustRem_bounds h tau ht
  unfold wrapAngle
  by_cases hneg : rustRem h tau < 0
  · rw [if_pos hneg]
    constructor <;> linarith
  · rw [if_neg hneg]
    constructor <;> linarith

lemma invariant_new (ops : Ops) (now : ℕ) (ht : 0 < ops.tau) :
    Invariant ops (ShooterState.new now) :=
  ⟨le_rfl, le_rfl, ht, by simp [ShooterState.new]⟩

lemma invariant_restart (ops : Ops) (now : ℕ) (st : ShooterState)
    (ht : 0 < ops.tau) : Invariant ops (restart now st) :=
  ⟨le_rfl, le_rfl, ht, by simp [restart]⟩

lemma invariant_rotate (ops : Ops) (delta : ℚ) (st : ShooterState)
    (ht : 0 < ops.tau) (h : Invariant ops st) :
    Invariant ops (rotate_camera ops delta st) := by
  unfold rotate_camera
  by_cases ha : st.alive = false
  · rw [if_pos ha]
    exact h
  · rw [if_neg ha]
    obtain ⟨h1, _, _, h4⟩ := h
    obtain ⟨w1, w2⟩ := wrapAngle_mem ops.tau (st.heading + delta) ht
    exact ⟨h1, w1, w2, h4⟩

lemma invariant_fire (ops : Ops) (now : ℕ) (st : ShooterState)
    (h : Invariant ops st) : Invariant ops (fire ops now st) := by
  obtain ⟨h1, h2, h3, h4⟩ := h
  unfold fire
  by_cases ha : st.alive = false
  · rw [if_pos ha]
    exact ⟨h1, h2, h3, h4⟩
  · rw [if_neg ha]
    rcases hr : st.reloading_until with _ | u
    · by_cases hs : st.shots_remaining = 0
      · simp only [hs, if_true]
        exact ⟨Nat.zero_le _, h2, h3, fun _ => rfl⟩
      · simp only [hs, if_false]
        split
        · refine ⟨?_, h2, h3, by simp [hr]⟩
          show st.shots_remaining - 1 ≤ MAG_CAPACITY
          omega
        · refine ⟨?_, h2, h3, by simp [hr]⟩
          show st.shots_remaining - 1 ≤ MAG_CAPACITY
          omega
    · by_cases hlt : now < u
      · simp only [hlt, if_true]
        exact ⟨h1, h2, h3, fun _ => h4 (by simp [hr])⟩
      · have hs0 : st.shots_remaining = 0 := h4 (by simp [hr])
        simp only [hlt, if_false, hs0, if_true]
        exact ⟨Nat.zero_le _, h2, h3, fun _ => rfl⟩

lemma reloadCheck_invariant (now : ℕ) (st : ShooterState)
    (h1 : st.shots_remaining ≤ MAG_CAPACITY)
    (h4 : st.reloading_until.isSome = true → st.shots_remaining = 0) :
    (reloadCheck now st).shots_remaining ≤ MAG_CAPACITY ∧
    ((reloadCheck now st).reloading_until.isSome = true →
      (reloadCheck now st).shots_remaining = 0) := by
  unfold reloadCheck
  rcases h : st.reloading_until with _ | u
  · exact ⟨h1, h4⟩
  · simp only
    split
    · simp
    · exact ⟨h1, h4⟩

lemma invariant_tick (ops : Ops) (now : ℕ) (st : ShooterState)
    (h : Invariant ops st) : Invariant ops (handle_tick ops now st).1 := by
  obtain ⟨h1, h2, h3, h4⟩ := h
  rcases ha : st.alive with _ | _
  · rw [handle_tick_dead ops now st ha]
    exact ⟨h1, h2, h3, h4⟩
  · have hsr := tickMoved_shots_reloading ops now st
    have hrc := reloadCheck_invariant now st h1 h4
    have hmf := tickMoved_fields ops now st
    by_cases hc : anyClose ops (tickMoved ops now st) = true
    · rw [handle_tick_close ops now st ha hc]
      have hff := handle_failure_fields ops now (tickMoved ops now st)
      refine ⟨?_, ?_, ?_, ?_⟩
      · rw [hff.1, hsr.1]
        exact hrc.1
      · rw [hff.2.2.1, hmf.2.2.1]
        exact h2
      · rw [hff.2.2.1, hmf.2.2.1]
        exact h3
      · intro hsome
        rw [hff.2.1, hsr.2] at hsome
        rw [hff.1, hsr.1]
        exact hrc.2 hsome
    · rw [handle_tick_noclose ops now st ha
        (by revert hc; cases anyClose ops (tickMoved ops now st) <;> simp)]
      refine ⟨?_, ?_, ?_, ?_⟩
      · show (tickMoved ops now st).shots_remaining ≤ MAG_CAPACITY
        rw [hsr.1]
        exact hrc.1
      · show 0 ≤ (tickMoved ops now st).heading
        rw [hmf.2.2.1]
        exact h2
      · show (tickMoved ops now st).heading < ops.tau
        rw [hmf.2.2.1]
        exact h3
      · intro hsome
        show (tickMoved ops now st).shots_remaining = 0
        rw [hsr.1]
        refine hrc.2 ?_
        rw [← hsr.2]
        exact hsome

lemma invariant_event (ops : Ops) (now : ℕ) (ev : Event) (st : ShooterState)
    (ht : 0 < ops.tau) (h : Invariant ops st) :
    Invariant ops (handle_event ops now ev st).1 := by
  cases ev with
  | nonkey => exact h
  | key key =>
    obtain ⟨code, mods⟩ := key
    cases code with
    | char c =>
      simp only [handle_event]
      split_ifs <;>
        first
          | exact invariant_rotate ops _ st ht h
          | exact invariant_fire ops now st h
          | exact invariant_restart ops now st ht
          | exact h
    | left => exact invariant_rotate ops _ st ht h
    | right => exact invariant_rotate ops _ st ht h
    | enter =>
      simp only [handle_event]
      split_ifs
      · exact invariant_fire ops now st h
      · exact invariant_restart ops now st ht
    | up => exact h
    | down => exact h
    | esc => exact h
    | backspace => exact h
    | other => exact h

lemma findHit_cons_skip (f : Enemy → Vec2) (e : Enemy) (rest : List Enemy)
    (i : ℕ) (best : ℚ) (hit : Option ℕ) (h : ¬ isCandidate f best e) :
    findHit f (e :: rest) i best hit = findHit f rest (i + 1) best hit := by
  simp only [findHit]
  by_cases h1 : (f e).y ≤ 1 / 10
  · rw [if_pos h1]
  · rw [if_neg h1]
    by_cases h2 : |(f e).x| ≤ HIT_WINDOW
    · rw [if_pos h2, if_neg (fun hb => h ⟨not_le.mp h1, h2, hb⟩)]
    · rw [if_neg h2]

lemma findHit_cons_update (f : Enemy → Vec2) (e : Enemy) (rest : List Enemy)
    (i : ℕ) (best : ℚ) (hit : Option ℕ) (h : isCandidate f best e) :
    findHit f (e :: rest) i best hit =
      findHit f rest (i + 1) (f e).y (some i) := by
  simp only [findHit]
  rw [if_neg (not_le.mpr h.1), if_pos h.2.1, if_pos h.2.2]

/-- Complete characterization of the `fire` scan: either no list element is
a candidate below the running best and the accumulator is returned
unchanged, or the scan returns the forward coordinate and (offset) index of
the first candidate attaining the minimal forward coordinate. -/
lemma findHit_spec (f : Enemy → Vec2) :
    ∀ (l : List Enemy) (i : ℕ) (best : ℚ) (hit : Option ℕ),
      ((∀ k, k < l.length → ¬ isCandidate f best (l.getD k dummyEnemy)) ∧
        findHit f l i best hit = (best, hit)) ∨
      (∃ j, j < l.length ∧ isCandidate f best (l.getD j dummyEnemy) ∧
        (∀ k, k < l.length → isCandidate f best (l.getD k dummyEnemy) →
          (f (l.getD j dummyEnemy)).y ≤ (f (l.getD k dummyEnemy)).y) ∧
        (∀ k, k < l.length → k < j →
          isCandidate f best (l.getD k dummyEnemy) →
          (f (l.getD j dummyEnemy)).y < (f (l.getD k dummyEnemy)).y) ∧
        findHit f l i best hit =
          ((f (l.getD j dummyEnemy)).y, some (i + j))) := by
  intro l
  induction l with
  | nil =>
    intro i best hit
    left
    exact ⟨by simp, rfl⟩
  | cons e rest ih =>
    intro i best hit
    by_cases hecand : isCandidate f best e
    · rw [findHit_cons_update f e rest i best hit hecand]
      rcases ih (i + 1) (f e).y (some i) with ⟨hnone, heq⟩ |
        ⟨j, hj, hcand, hmin, hfirst, heq⟩
      · right
        refine ⟨0, by simp, by simpa using hecand, ?_, ?_, ?_⟩
        · intro k hk hkc
          cases k with
          | zero => simp
          | succ k' =>
            by_contra hlt
            push_neg at hlt
            have hkc' : isCandidate f best (rest.getD k' dummyEnemy) := by
              simpa using hkc
            have hlt' : (f (rest.getD k' dummyEnemy)).y < (f e).y := by
              simpa using hlt
            exact hnone k' (by simpa using hk)
              ⟨hkc'.1, hkc'.2.1, hlt'⟩
        · intro k hk hklt hkc
          omega
        · rw [heq]
          simp
      · right
        have hjy : (f (rest.getD j dummyEnemy)).y < (f e).y := hcand.2.2
        refine ⟨j + 1, by simpa using hj, ?_, ?_, ?_, ?_⟩
        · have : isCandidate f best (rest.getD j dummyEnemy) :=
            ⟨hcand.1, hcand.2.1, lt_trans hjy hecand.2.2⟩
          simpa using this
        · intro k hk hkc
          cases k with
          | zero =>
            simpa using le_of_lt hjy
          | succ k' =>
            have hk' : k' < rest.length := by simpa using hk
            have hkc' : isCandidate f best (rest.getD k' dummyEnemy) := by
              simpa using hkc
            by_cases hlt : (f (rest.getD k' dummyEnemy)).y < (f e).y
            · have := hmin k' hk' ⟨hkc'.1, hkc'.2.1, hlt⟩
              simpa using this
            · push_neg at hlt
              simpa using le_trans (le_of_lt hjy) hlt
        · intro k hk hklt hkc
          cases k with
          | zero => simpa using hjy
          | succ k' =>
            have hk' : k' < rest.length := by simpa using hk
            have hkc' : isCandidate f best (rest.getD k' dummyEnemy) := by
              simpa using hkc
            by_cases hlt : (f (rest.getD k' dummyEnemy)).y < (f e).y
            · have := hfirst k' hk' (by omega) ⟨hkc'.1, hkc'.2.1, hlt⟩
              simpa using this
            · push_neg at hlt
              simpa using lt_of_lt_of_le hjy hlt
        · rw [heq]
          have harith : i + 1 + j = i + (j + 1) := by omega
          rw [harith]
          simp
    · rw [findHit_cons_skip f e rest i best hit hecand]
      rcases ih (i + 1) best hit with ⟨hnone, heq⟩ |
        ⟨j, hj, hcand, hmin, hfirst, heq⟩
      · left
        refine ⟨?_, heq⟩
        intro k hk
        cases k with
        | zero => simpa using hecand
        | succ k' => simpa using hnone k' (by simpa using hk)
      · right
        refine ⟨j + 1, by simpa using hj, by simpa using hcand, ?_, ?_, ?_⟩
        · intro k hk hkc
          cases k with
          | zero => exact absurd (by simpa using hkc) hecand
          | succ k' =>
            simpa using hmin k' (by simpa using hk) (by simpa using hkc)
        · intro k hk hklt hkc
          cases k with
          | zero => exact absurd (by simpa using hkc) hecand
          | succ k' =>
            simpa using
              hfirst k' (by simpa using hk) (by omega) (by simpa using hkc)
        · rw [heq]
          have harith : i + 1 + j = i + (j + 1) := by omega
          rw [harith]
          simp

lemma swapRemove_length (l : List Enemy) (j : ℕ) (h : j < l.length) :
    (swapRemove l j).length + 1 = l.length := by
  unfold swapRemove
  rw [List.length_dropLast, List.length_set]
  omega

lemma fire_eq_hit (ops : Ops) (now : ℕ) (st : ShooterState) (idx : ℕ)
    (ha : st.alive = true) (hr : st.reloading_until = none)
    (hs : st.shots_remaining ≠ 0)
    (hfind : (findHit (camOf ops st) st.enemies 0 F32_MAX none).2 = some idx) :
    fire ops now st =
      { st with
          last_fire := some now
          shots_remaining := st.shots_remaining - 1
          enemies := swapRemove st.enemies idx
          kills := st.kills + 1
          status := "Direct hit!" } := by
  unfold fire
  rw [if_neg (by simp [ha])]
  simp only [hr]
  rw [if_neg hs]
  have hc : (findHit
      (camOf ops
        { st with
            last_fire := some now
            shots_remaining := st.shots_remaining - 1
            reloading_until := none })
      st.enemies 0 F32_MAX none).2 = some idx := hfind
  rw [hc]

lemma fire_eq_miss (ops : Ops) (now : ℕ) (st : ShooterState)
    (ha : st.alive = true) (hr : st.reloading_until = none)
    (hs : st.shots_remaining ≠ 0)
    (hfind : (findHit (camOf ops st) st.enemies 0 F32_MAX none).2 = none) :
    fire ops now st =
      { st with
          last_fire := some now
          shots_remaining := st.shots_remaining - 1
          status := "Missed — keep them centered" } := by
  unfold fire
  rw [if_neg (by simp [ha])]
  simp only [hr]
  rw [if_neg hs]
  have hc : (findHit
      (camOf ops
        { st with
            last_fire := some now
            shots_remaining := st.shots_remaining - 1
            reloading_until := none })
      st.enemies 0 F32_MAX none).2 = none := hfind
  rw [hc]

end ShooterState

namespace VimMotionState

lemma clampStep_right (x w : ℕ) (hx : x < w) :
    clampStep x 1 w = min (x + 1) (w - 1) := by
  unfold clampStep
  omega

lemma clampStep_left (x w : ℕ) (hx : x < w) :
    clampStep x (-1) w = x - 1 := by
  unfold clampStep
  omega

lemma clampStep_zero (x w : ℕ) (hx : x < w) : clampStep x 0 w = x := by
  unfold clampStep
  omega

lemma moveLoop_right (w h : ℕ) :
    ∀ n x y, x < w → y < h →
      moveLoop w h 1 0 n (x, y) = (min (x + n) (w - 1), y) := by
  intro n
  induction n with
  | zero =>
    intro x y hx hy
    have h0 : min (x + 0) (w - 1) = x := by omega
    simp only [moveLoop]
    rw [h0]
  | succ n ih =>
    intro x y hx hy
    simp only [moveLoop, clampStep_right x w hx, clampStep_zero y h hy,
      and_true]
    by_cases hstop : min (x + 1) (w - 1) = x
    · rw [if_pos hstop]
      have harith : min (x + (n + 1)) (w - 1) = x := by omega
      rw [harith]
    · rw [if_neg hstop]
      have hlt : min (x + 1) (w - 1) < w := by omega
      rw [ih (min (x + 1) (w - 1)) y hlt hy]
      have harith : min (min (x + 1) (w - 1) + n) (w - 1) =
          min (x + (n + 1)) (w - 1) := by omega
      rw [harith]

lemma moveLoop_left (w h : ℕ) :
    ∀ n x y, x < w → y < h →
      moveLoop w h (-1) 0 n (x, y) = (x - min n x, y) := by
  intro n
  induction n with
  | zero =>
    intro x y hx hy
    have h0 : x - min 0 x = x := by omega
    simp only [moveLoop]
    rw [h0]
  | succ n ih =>
    intro x y hx hy
    simp only [moveLoop, clampStep_left x w hx, clampStep_zero y h hy,
      and_true]
    by_cases hstop : x - 1 = x
    · rw [if_pos hstop]
      have harith : x - min (n + 1) x = x := by omega
      rw [harith]
    · rw [if_neg hstop]
      have hlt : x - 1 < w := by omega
      rw [ih (x - 1) y hlt hy]
      have harith : x - 1 - min n (x - 1) = x - min (n + 1) x := by omega
      rw [harith]

lemma moveLoop_down (w h : ℕ) :
    ∀ n x y, x < w → y < h →
      moveLoop w h 0 1 n (x, y) = (x, min (y + n) (h - 1)) := by
  intro n
  induction n with
  | zero =>
    intro x y hx hy
    have h0 : min (y + 0) (h - 1) = y := by omega
    simp only [moveLoop]
    rw [h0]
  | succ n ih =>
    intro x y hx hy
    simp only [moveLoop, clampStep_right y h hy, clampStep_zero x w hx,
      true_and]
    by_cases hstop : min (y + 1) (h - 1) = y
    · rw [if_pos hstop]
      have harith : min (y + (n + 1)) (h - 1) = y := by omega
      rw [harith]
    · rw [if_neg hstop]
      have hlt : min (y + 1) (h - 1) < h := by omega
      rw [ih x (min (y + 1) (h - 1)) hx hlt]
      have harith : min (min (y + 1) (h - 1) + n) (h - 1) =
          min (y + (n + 1)) (h - 1) := by omega
      rw [harith]

lemma moveLoop_up (w h : ℕ) :
    ∀ n x y, x < w → y < h →
      moveLoop w h 0 (-1) n (x, y) = (x, y - min n y) := by
  intro n
  induction n with
  | zero =>
    intro x y hx hy
    have h0 : y - min 0 y = y := by omega
    simp only [moveLoop]
    rw [h0]
  | succ n ih =>
    intro x y hx hy
    simp only [moveLoop, clampStep_left y h hy, clampStep_zero x w hx,
      true_and]
    by_cases hstop : y - 1 = y
    · rw [if_pos hstop]
      have harith : y - min (n + 1) y = y := by omega
      rw [harith]
    · rw [if_neg hstop]
      have hlt : y - 1 < h := by omega
      rw [ih x (y - 1) hx hlt]
      have harith : y - 1 - min n (y - 1) = y - min (n + 1) y := by omega
      rw [harith]

lemma moveBranch_eq (s : VimMotionState) (cursor : ℕ × ℕ) (w h : ℕ)
    (dx dy : ℤ) (hw : 0 < w) (hh : 0 < h) :
    moveBranch s cursor w h dx dy =
      (⟨none, false⟩, moveLoop w h dx dy (s.count.getD 1) cursor, true) := by
  unfold moveBranch move_cursor consume_pending
  simp [show ¬(w = 0 ∨ h = 0) from by omega]

lemma moveBranch_zero (s : VimMotionState) (cursor : ℕ × ℕ) (dx dy : ℤ) :
    moveBranch s cursor 0 0 dx dy = (⟨none, false⟩, cursor, true) := by
  unfold moveBranch move_cursor consume_pending
  simp

lemma handle_key_digit (s : VimMotionState) (m : ℕ) (cursor : ℕ × ℕ)
    (w h : ℕ) (ch : Char) (hd : ch.isDigit = true)
    (hnz : ¬(ch.toNat - '0'.toNat = 0 ∧ s.count = none)) :
    handle_key s ⟨.char ch, m⟩ cursor w h =
      (⟨some (min (s.count.getD 0 * 10 + (ch.toNat - '0'.toNat)) 999),
        false⟩, cursor, true) := by
  simp only [handle_key, hd, if_true]
  rw [if_neg hnz]

lemma handle_key_digit_zero (s : VimMotionState) (m : ℕ) (cursor : ℕ × ℕ)
    (w h : ℕ) (ch : Char) (hd : ch.isDigit = true)
    (hz : ch.toNat - '0'.toNat = 0 ∧ s.count = none) :
    handle_key s ⟨.char ch, m⟩ cursor w h =
      (⟨none, false⟩, (if 0 < w then (0, cursor.2) else cursor), true) := by
  simp only [handle_key, hd, if_true]
  rw [if_pos hz]

end VimMotionState

/-! ## Claim theorems -/

open ShooterState in
/-- C10: `ShooterState::handle_event` returns `GameAction::None` for every
input event and state — input handling never emits a record; and
`handle_tick` produces a `GameAction::Record` only through the run-ending
transition (the state was alive and the result state is not). -/
theorem shooter_event_no_record (ops : Ops) (now : ℕ) (ev : Event)
    (st : ShooterState) :
    (handle_event ops now ev st).2 = GameAction.none ∧
    (∀ st' r k, handle_tick ops now st = (st', GameAction.record r k) →
      st.alive = true ∧ st'.alive = false) := by
  constructor
  · cases ev <;> rfl
  · intro st' r k hrec
    rcases ha : st.alive with _ | _
    · unfold handle_tick tick_internal at hrec
      simp [ha, retainEnemies] at hrec
    · refine ⟨rfl, ?_⟩
      unfold handle_tick at hrec
      rw [tick_internal_alive_eq ops now st ha] at hrec
      by_cases hc : anyClose ops (tickMoved ops now st)
      · simp only [hc, if_true] at hrec
        have hst' : (handle_failure ops now (tickMoved ops now st)).1 = st' :=
          congrArg Prod.fst hrec
        have halive : (tickMoved ops now st).alive = true := by
          rw [(tickMoved_fields ops now st).1, ha]
        rw [← hst']
        exact handle_failure_alive ops now _ halive
      · simp [hc] at hrec

open VimMotionState in
/-- C4: on a grid of positive width and height with an in-bounds cursor,
digit keys accumulate the pending count (base 10, capped at 999, always at
least 1) without moving the cursor, and a directional key (arrow or
h/j/k/l) moves the cursor exactly `min (count, steps-to-boundary)` cells in
that direction — one cell repeated `count` times (`1` when no count is
pending; pending counts are always ≥ 1), stopping at the boundary without
wrapping — and consumes the pending count (reset to `none`) whether or not
one was present. -/
theorem motion_count_movement (w h x y : ℕ) (hw : 0 < w) (hh : 0 < h)
    (hx : x < w) (hy : y < h) (s : VimMotionState) (key : KeyEvent)
    (hcount : ∀ m, s.count = some m → 1 ≤ m) :
    (∀ ch : Char, key.code = .char ch → ch.isDigit = true →
      ¬(ch.toNat - '0'.toNat = 0 ∧ s.count = none) →
      handle_key s key (x, y) w h =
        (⟨some (min (s.count.getD 0 * 10 + (ch.toNat - '0'.toNat)) 999),
          false⟩, (x, y), true) ∧
      1 ≤ min (s.count.getD 0 * 10 + (ch.toNat - '0'.toNat)) 999) ∧
    (key.code = .right ∨ key.code = .char 'l' →
      handle_key s key (x, y) w h =
        (⟨none, false⟩, (x + min (s.count.getD 1) (w - 1 - x), y), true)) ∧
    (key.code = .left ∨ key.code = .char 'h' →
      handle_key s key (x, y) w h =
        (⟨none, false⟩, (x - min (s.count.getD 1) x, y), true)) ∧
    (key.code = .down ∨ key.code = .char 'j' →
      handle_key s key (x, y) w h =
        (⟨none, false⟩, (x, y + min (s.count.getD 1) (h - 1 - y)), true)) ∧
    (key.code = .up ∨ key.code = .char 'k' →
      handle_key s key (x, y) w h =
        (⟨none, false⟩, (x, y - min (s.count.getD 1) y), true)) := by
  obtain ⟨code, m⟩ := key
  refine ⟨?_, ?_, ?_, ?_, ?_⟩
  · intro ch hc hd hnz
    have hcode : code = .char ch := hc
    subst hcode
    refine ⟨handle_key_digit s m (x, y) w h ch hd hnz, ?_⟩
    rcases hsc : s.count with _ | n
    · have hdz : ch.toNat - '0'.toNat ≠ 0 := fun h0 => hnz ⟨h0, hsc⟩
      simp only [hsc, Option.getD_none]
      omega
    · have h1 := hcount n hsc
      simp only [hsc, Option.getD_some]
      omega
  · intro hk
    have harith : min (x + s.count.getD 1) (w - 1) =
        x + min (s.count.getD 1) (w - 1 - x) := by omega
    rcases hk with hk | hk
    · have hcode : code = .right := hk
      subst hcode
      rw [show handle_key s ⟨.right, m⟩ (x, y) w h =
            moveBranch s (x, y) w h 1 0 from rfl,
        moveBranch_eq s (x, y) w h 1 0 hw hh,
        moveLoop_right w h (s.count.getD 1) x y hx hy, harith]
    · have hcode : code = .char 'l' := hk
      subst hcode
      rw [show handle_key s ⟨.char 'l', m⟩ (x, y) w h =
            moveBranch s (x, y) w h 1 0 from rfl,
        moveBranch_eq s (x, y) w h 1 0 hw hh,
        moveLoop_right w h (s.count.getD 1) x y hx hy, harith]
  · intro hk
    rcases hk with hk | hk
    · have hcode : code = .left := hk
      subst hcode
      rw [show handle_key s ⟨.left, m⟩ (x, y) w h =
            moveBranch s (x, y) w h (-1) 0 from rfl,
        moveBranch_eq s (x, y) w h (-1) 0 hw hh,
        moveLoop_left w h (s.count.getD 1) x y hx hy]
    · have hcode : code = .char 'h' := hk
      subst hcode
      rw [show handle_key s ⟨.char 'h', m⟩ (x, y) w h =
            moveBranch s (x, y) w h (-1) 0 from rfl,
        moveBranch_eq s (x, y) w h (-1) 0 hw hh,
        moveLoop_left w h (s.count.getD 1) x y hx hy]
  · intro hk
    have harith : min (y + s.count.getD 1) (h - 1) =
        y + min (s.count.getD 1) (h - 1 - y) := by omega
    rcases hk with hk | hk
    · have hcode : code = .down := hk
      subst hcode
      rw [show handle_key s ⟨.down, m⟩ (x, y) w h =
            moveBranch s (x, y) w h 0 1 from rfl,
        moveBranch_eq s (x, y) w h 0 1 hw hh,
        moveLoop_down w h (s.count.getD 1) x y hx hy, harith]
    · have hcode : code = .char 'j' := hk
      subst hcode
      rw [show handle_key s ⟨.char 'j', m⟩ (x, y) w h =
            moveBranch s (x, y) w h 0 1 from rfl,
        moveBranch_eq s (x, y) w h 0 1 hw hh,
        moveLoop_down w h (s.count.getD 1) x y hx hy, harith]
  · intro hk
    rcases hk with hk | hk
    · have hcode : code = .up := hk
      subst hcode
      rw [show handle_key s ⟨.up, m⟩ (x, y) w h =
            moveBranch s (x, y) w h 0 (-1) from rfl,
        moveBranch_eq s (x, y) w h 0 (-1) hw hh,
        moveLoop_up w h (s.count.getD 1) x y hx hy]
    · have hcode : code = .char 'k' := hk
      subst hcode
      rw [show handle_key s ⟨.char 'k', m⟩ (x, y) w h =
            moveBranch s (x, y) w h 0 (-1) from rfl,
        moveBranch_eq s (x, y) w h 0 (-1) hw hh,
        moveLoop_up w h (s.count.getD 1) x y hx hy]

open VimMotionState in
/-- Witness for C4: on a 10×5 grid with cursor (2,1) and pending count 3,
`Right` moves to (5,1) and consumes the count. -/
theorem motion_count_movement_witness :
    handle_key ⟨some 3, false⟩ ⟨.right, 0⟩ (2, 1) 10 5 =
      (⟨none, false⟩, (5, 1), true) := by
  have h := (motion_count_movement 10 5 2 1 (by decide) (by decide)
    (by decide) (by decide) ⟨some 3, false⟩ ⟨.right, 0⟩
    (fun m hm => by simp at hm; omega)).2.1 (Or.inl rfl)
  simpa using h

open VimMotionState in
/-- Counterexample for C5 as stated: on a zero-width grid of height 5, `G`
moves the cursor row to the last row (cursor motion does occur); and on a
0×0 grid the digit key `5` with a pending count accumulates the count to 15
instead of clearing it, and is reported as handled (`true`), not
unhandled. -/
theorem motion_zero_grid_counterexample :
    (handle_key ⟨some 3, false⟩ ⟨.char 'G', 0⟩ (0, 3) 0 5).2.1 = (0, 4) ∧
    (handle_key ⟨some 1, false⟩ ⟨.char '5', 0⟩ (0, 0) 0 0).1.count =
      some 15 ∧
    (handle_key ⟨some 1, false⟩ ⟨.char '5', 0⟩ (0, 0) 0 0).2.2 = true := by
  decide

open VimMotionState in
/-- C5 amended: on a zero-width **and** zero-height grid, `handle_key` is
total (never panics) and never moves the cursor; motion-grammar keys are
still reported as handled (`true`) and only non-grammar keys as unhandled;
a non-grammar key retains the pending count (clearing only the pending
`g`); a directional key clears the pending count; and digit keys accumulate
the pending count instead of clearing it.  (On a grid with only one zero
extent, `g`/`G`/`0`/`$` can still move the cursor along the non-zero
axis.) -/
theorem motion_zero_grid_amended (s : VimMotionState) (key : KeyEvent)
    (cursor : ℕ × ℕ) :
    ((handle_key s key cursor 0 0).2.1 = cursor) ∧
    ((handle_key s key cursor 0 0).2.2 = isMotionGrammarKey key.code) ∧
    (isMotionGrammarKey key.code = false →
      handle_key s key cursor 0 0 = (⟨s.count, false⟩, cursor, false)) ∧
    (isDirectionKey key.code = true →
      (handle_key s key cursor 0 0).1.count = none) ∧
    (∀ ch, key.code = .char ch → ch.isDigit = true →
      ¬(ch.toNat - '0'.toNat = 0 ∧ s.count = none) →
      (handle_key s key cursor 0 0).1.count =
        some (min (s.count.getD 0 * 10 + (ch.toNat - '0'.toNat)) 999)) := by
  obtain ⟨code, m⟩ := key
  cases code with
  | char ch =>
    by_cases hd : ch.isDigit = true
    · by_cases hz : ch.toNat - '0'.toNat = 0 ∧ s.count = none
      · rw [handle_key_digit_zero s m cursor 0 0 ch hd hz]
        refine ⟨rfl, ?_, ?_, fun _ => rfl, ?_⟩
        · simp [isMotionGrammarKey, hd]
        · intro hng
          simp [isMotionGrammarKey, hd] at hng
        · intro ch' hc hd' hnz
          injection hc with hcc
          subst hcc
          exact absurd hz hnz
      · rw [handle_key_digit s m cursor 0 0 ch hd hz]
        refine ⟨rfl, ?_, ?_, ?_, ?_⟩
        · simp [isMotionGrammarKey, hd]
        · intro hng
          simp [isMotionGrammarKey, hd] at hng
        · intro hdir
          simp [isDirectionKey] at hdir
          rcases hdir with ((hc | hc) | hc) | hc <;> subst hc <;>
            exact absurd hd (by decide)
        · intro ch' hc hd' hnz
          injection hc with hcc
          subst hcc
          rfl
    · have hdb : ch.isDigit = false := by
        revert hd
        cases ch.isDigit <;> simp
      by_cases hg : ch = 'g'
      · subst hg
        have hkey : handle_key s ⟨.char 'g', m⟩ cursor 0 0 =
            (if s.pending_g then ((⟨none, false⟩ : VimMotionState),
              cursor, true)
             else ({ s with pending_g := true }, cursor, true)) := rfl
        rw [hkey]
        by_cases hp : s.pending_g = true
        · rw [if_pos hp]
          refine ⟨rfl, rfl, ?_, fun _ => rfl, ?_⟩
          · intro hng
            exact Bool.noConfusion hng
          · intro ch' hc hd' _
            injection hc with hcc
            subst hcc
            exact absurd hd' (by decide)
        · rw [if_neg hp]
          refine ⟨rfl, rfl, ?_, ?_, ?_⟩
          · intro hng
            exact Bool.noConfusion hng
          · intro hdir
            exact Bool.noConfusion hdir
          · intro ch' hc hd' _
            injection hc with hcc
            subst hcc
            exact absurd hd' (by decide)
      · by_cases hG : ch = 'G'
        · subst hG
          have hkey : handle_key s ⟨.char 'G', m⟩ cursor 0 0 =
              ((⟨none, false⟩ : VimMotionState), cursor, true) := rfl
          rw [hkey]
          refine ⟨rfl, rfl, ?_, fun _ => rfl, ?_⟩
          · intro hng
            exact Bool.noConfusion hng
          · intro ch' hc hd' _
            injection hc with hcc
            subst hcc
            exact absurd hd' (by decide)
        · by_cases hS : ch = '$'
          · subst hS
            have hkey : handle_key s ⟨.char '$', m⟩ cursor 0 0 =
                ((⟨none, false⟩ : VimMotionState), cursor, true) := rfl
            rw [hkey]
            refine ⟨rfl, rfl, ?_, fun _ => rfl, ?_⟩
            · intro hng
              exact Bool.noConfusion hng
            · intro ch' hc hd' _
              injection hc with hcc
              subst hcc
              exact absurd hd' (by decide)
          · by_cases hmove : ch = 'h' ∨ ch = 'l' ∨ ch = 'k' ∨ ch = 'j'
            · have hkey : handle_key s ⟨.char ch, m⟩ cursor 0 0 =
                  ((⟨none, false⟩ : VimMotionState), cursor, true) := by
                rcases hmove with hc | hc | hc | hc <;> subst hc <;>
                  (show moveBranch s cursor 0 0 _ _ = _
                   rw [moveBranch_zero])
              rw [hkey]
              refine ⟨rfl, ?_, ?_, fun _ => rfl, ?_⟩
              · rcases hmove with hc | hc | hc | hc <;> subst hc <;> rfl
              · intro hng
                rcases hmove with hc | hc | hc | hc <;> subst hc <;>
                  exact Bool.noConfusion hng
              · intro ch' hc hd' _
                injection hc with hcc
                subst hcc
                rcases hmove with hc | hc | hc | hc <;> subst hc <;>
                  exact absurd hd' (by decide)
            · push_neg at hmove
              obtain ⟨hh', hl, hk, hj⟩ := hmove
              have hkey : handle_key s ⟨.char ch, m⟩ cursor 0 0 =
                  (s.consume_pending, cursor, false) := by
                simp only [handle_key, hdb, Bool.false_eq_true, if_false,
                  hg, hG, hS, hh', hl, hk, hj]
              rw [hkey]
              refine ⟨rfl, ?_, ?_, ?_, ?_⟩
              · simp [isMotionGrammarKey, hdb, hg, hG, hS, hh', hl, hk, hj]
              · intro _
                rfl
              · intro hdir
                simp [isDirectionKey, hh', hl, hk, hj] at hdir
              · intro ch' hc hd' _
                injection hc with hcc
                subst hcc
                exact absurd hd' (by simp [hdb])
  | left =>
    rw [show handle_key s ⟨.left, m⟩ cursor 0 0 =
        moveBranch s cursor 0 0 (-1) 0 from rfl, moveBranch_zero]
    exact ⟨rfl, rfl, fun hng => Bool.noConfusion hng, fun _ => rfl,
      fun ch' hc => by simp at hc⟩
  | right =>
    rw [show handle_key s ⟨.right, m⟩ cursor 0 0 =
        moveBranch s cursor 0 0 1 0 from rfl, moveBranch_zero]
    exact ⟨rfl, rfl, fun hng => Bool.noConfusion hng, fun _ => rfl,
      fun ch' hc => by simp at hc⟩
  | up =>
    rw [show handle_key s ⟨.up, m⟩ cursor 0 0 =
        moveBranch s cursor 0 0 0 (-1) from rfl, moveBranch_zero]
    exact ⟨rfl, rfl, fun hng => Bool.noConfusion hng, fun _ => rfl,
      fun ch' hc => by simp at hc⟩
  | down =>
    rw [show handle_key s ⟨.down, m⟩ cursor 0 0 =
        moveBranch s cursor 0 0 0 1 from rfl, moveBranch_zero]
    exact ⟨rfl, rfl, fun hng => Bool.noConfusion hng, fun _ => rfl,
      fun ch' hc => by simp at hc⟩
  | esc =>
    exact ⟨rfl, rfl, fun _ => rfl,
      fun hdir => by simp [isDirectionKey] at hdir,
      fun ch' hc => by simp at hc⟩
  | enter =>
    exact ⟨rfl, rfl, fun _ => rfl,
      fun hdir => by simp [isDirectionKey] at hdir,
      fun ch' hc => by simp at hc⟩
  | backspace =>
    exact ⟨rfl, rfl, fun _ => rfl,
      fun hdir => by simp [isDirectionKey] at hdir,
      fun ch' hc => by simp at hc⟩
  | other =>
    exact ⟨rfl, rfl, fun _ => rfl,
      fun hdir => by simp [isDirectionKey] at hdir,
      fun ch' hc => by simp at hc⟩

open VimMotionState in
/-- Witness for the amended C5, at concrete inputs on the 0×0 grid: an
arrow key leaves the cursor and clears the count; a non-grammar key
(escape) retains the count, clears the pending `g`, and reports
unhandled. -/
theorem motion_zero_grid_witness :
    (handle_key ⟨some 2, true⟩ ⟨.left, 0⟩ (5, 7) 0 0).2.1 = (5, 7) ∧
    (handle_key ⟨some 2, true⟩ ⟨.left, 0⟩ (5, 7) 0 0).1.count = none ∧
    handle_key ⟨some 2, true⟩ ⟨.esc, 0⟩ (5, 7) 0 0 =
      (⟨some 2, false⟩, (5, 7), false) :=
  ⟨(motion_zero_grid_amended ⟨some 2, true⟩ ⟨.left, 0⟩ (5, 7)).1,
    (motion_zero_grid_amended ⟨some 2, true⟩ ⟨.left, 0⟩ (5, 7)).2.2.2.1
      (by decide),
    (motion_zero_grid_amended ⟨some 2, true⟩ ⟨.esc, 0⟩ (5, 7)).2.2.1
      (by decide)⟩

open VimMotionState in
/-- Counterexample for C6 as stated: after the escape key (a non-grammar
key), the pending numeric count is **not** cleared — only the pending `g`
flag is — so the `MotionState` is not fully reset. -/
theorem motion_clear_counterexample :
    (handle_key ⟨some 3, true⟩ ⟨.esc, 0⟩ (1, 0) 10 1).1.count = some 3 ∧
    (handle_key ⟨some 3, true⟩ ⟨.esc, 0⟩ (1, 0) 10 1).1.pending_g =
      false := by
  decide

open VimMotionState in
/-- C6 amended: after any key outside the motion grammar (including
escape), `handle_key` clears only the pending modal-prefix `g` flag,
retains the pending numeric count unchanged, performs no cursor motion,
and reports the key unhandled; both fields are reset together only by the
explicit `clear` method (which callers such as the chimp-test module invoke
on escape). -/
theorem motion_nongrammar_clears_g (s : VimMotionState) (key : KeyEvent)
    (cursor : ℕ × ℕ) (w h : ℕ)
    (hng : isMotionGrammarKey key.code = false) :
    handle_key s key cursor w h = (⟨s.count, false⟩, cursor, false) ∧
    s.clear = ⟨none, false⟩ := by
  refine ⟨?_, rfl⟩
  obtain ⟨code, m⟩ := key
  cases code with
  | char ch =>
    simp only [isMotionGrammarKey, Bool.or_eq_false_iff,
      decide_eq_false_iff_not] at hng
    obtain ⟨⟨⟨⟨⟨⟨⟨hd, hg⟩, hG⟩, hS⟩, hh'⟩, hl⟩, hk⟩, hj⟩ := hng
    simp only [handle_key, hd, Bool.false_eq_true, if_false,
      hg, hG, hS, hh', hl, hk, hj]
    rfl
  | left => exact Bool.noConfusion hng
  | right => exact Bool.noConfusion hng
  | up => exact Bool.noConfusion hng
  | down => exact Bool.noConfusion hng
  | esc => rfl
  | enter => rfl
  | backspace => rfl
  | other => rfl

open VimMotionState in
/-- Witness for the amended C6 at a concrete non-grammar key
(backspace). -/
theorem motion_nongrammar_clears_g_witness :
    handle_key ⟨some 2, true⟩ ⟨.backspace, 0⟩ (0, 0) 3 3 =
      (⟨some 2, false⟩, (0, 0), false) ∧
    VimMotionState.clear ⟨some 2, true⟩ = ⟨none, false⟩ :=
  motion_nongrammar_clears_g ⟨some 2, true⟩ ⟨.backspace, 0⟩ (0, 0) 3 3
    (by decide)

open ShooterState in
/-- C1: for a fire action while alive with a non-empty magazine and no
pending reload: an enemy is destroyed only if its camera-space position
(`camOf`, the position relative to the player rotated by the negative of
the heading) has forward coordinate beyond the `0.1` dead-zone and lateral
coordinate within the hit window; if no enemy qualifies the enemy list and
kill count are unchanged, and otherwise exactly the first enemy attaining
the smallest forward coordinate among all qualifying candidates is removed
(via `swap_remove`); every fire action destroys exactly zero or one
enemy. -/
theorem shooter_fire_hit_selection (ops : Ops) (now : ℕ) (st : ShooterState)
    (ha : st.alive = true) (hr : st.reloading_until = none)
    (hs : st.shots_remaining ≠ 0) :
    ((∀ k, k < st.enemies.length →
        ¬ isCandidate (camOf ops st) F32_MAX (st.enemies.getD k dummyEnemy)) →
      (fire ops now st).enemies = st.enemies ∧
      (fire ops now st).kills = st.kills) ∧
    ((∃ k, k < st.enemies.length ∧
        isCandidate (camOf ops st) F32_MAX (st.enemies.getD k dummyEnemy)) →
      ∃ j, j < st.enemies.length ∧
        isCandidate (camOf ops st) F32_MAX (st.enemies.getD j dummyEnemy) ∧
        (∀ k, k < st.enemies.length →
          isCandidate (camOf ops st) F32_MAX (st.enemies.getD k dummyEnemy) →
          (camOf ops st (st.enemies.getD j dummyEnemy)).y ≤
            (camOf ops st (st.enemies.getD k dummyEnemy)).y) ∧
        (∀ k, k < st.enemies.length → k < j →
          isCandidate (camOf ops st) F32_MAX (st.enemies.getD k dummyEnemy) →
          (camOf ops st (st.enemies.getD j dummyEnemy)).y <
            (camOf ops st (st.enemies.getD k dummyEnemy)).y) ∧
        (fire ops now st).enemies = swapRemove st.enemies j ∧
        (fire ops now st).kills = st.kills + 1 ∧
        (fire ops now st).enemies.length + 1 = st.enemies.length) ∧
    ((fire ops now st).enemies.length = st.enemies.length ∨
      (fire ops now st).enemies.length + 1 = st.enemies.length) := by
  rcases findHit_spec (camOf ops st) st.enemies 0 F32_MAX none with
    ⟨hnone, heq⟩ | ⟨j, hj, hcand, hmin, hfirst, heq⟩
  · have hmiss := fire_eq_miss ops now st ha hr hs
      (by rw [heq])
    refine ⟨fun _ => by rw [hmiss]; exact ⟨rfl, rfl⟩, ?_, ?_⟩
    · rintro ⟨k, hk, hkc⟩
      exact absurd hkc (hnone k hk)
    · left
      rw [hmiss]
  · have hfind2 : (findHit (camOf ops st) st.enemies 0 F32_MAX none).2 =
        some j := by
      rw [heq]
      simp
    have hhit := fire_eq_hit ops now st j ha hr hs hfind2
    refine ⟨?_, ?_, ?_⟩
    · intro hno
      exact absurd hcand (hno j hj)
    · intro _
      refine ⟨j, hj, hcand, hmin, hfirst, by rw [hhit], by rw [hhit], ?_⟩
      have := swapRemove_length st.enemies j hj
      rw [hhit]
      exact this
    · right
      have := swapRemove_length st.enemies j hj
      rw [hhit]
      exact this

open ShooterState in
/-- C9: every `ShooterState` operation — construction, restart, event
handling (which dispatches to `rotate_camera`, `fire` and `restart`), and
tick handling — preserves the state `Invariant`: magazine count in
`[0, capacity]`, heading in `[0, TAU)`, and a pending reload only with an
empty (hence below-capacity) magazine; moreover an empty-magazine fire
attempt while alive leaves a reload pending with the magazine below
capacity. -/
theorem shooter_invariants (ops : Ops) (now : ℕ) (ev : Event)
    (st : ShooterState) (ht : 0 < ops.tau) :
    Invariant ops (ShooterState.new now) ∧
    (Invariant ops st → Invariant ops (restart now st)) ∧
    (Invariant ops st → Invariant ops (handle_event ops now ev st).1) ∧
    (Invariant ops st → Invariant ops (handle_tick ops now st).1) ∧
    (st.alive = true → st.shots_remaining = 0 → st.reloading_until = none →
      (fire ops now st).reloading_until = some (now + RELOAD_MS) ∧
      (fire ops now st).shots_remaining < MAG_CAPACITY) := by
  refine ⟨invariant_new ops now ht, fun _ => invariant_restart ops now st ht,
    fun h => invariant_event ops now ev st ht h,
    fun h => invariant_tick ops now st h, ?_⟩
  intro ha hs hr
  unfold fire
  rw [if_neg (by simp [ha])]
  simp [hr, hs, MAG_CAPACITY]

open ShooterState in
/-- C3: while alive, the shooter leaves the alive state on a tick exactly
when some enemy's distance to the player (after the tick's reload check,
spawn catch-up and enemy advance, `tickMoved`) has fallen below the
proximity threshold; at that transition the survival time is frozen from
the tick's `now` (not recomputed later), and a `GameAction::Record`
carrying the survival time is emitted exactly when it strictly exceeds the
previous best or no previous best exists (in which case the best is
updated); ticks while not alive emit no record and stay not alive. -/
theorem shooter_failure_record (ops : Ops) (now : ℕ) (st : ShooterState) :
    (st.alive = true → st.frozen_elapsed = none →
      (anyClose ops (tickMoved ops now st) = true →
        (handle_tick ops now st).1.alive = false ∧
        (handle_tick ops now st).1.frozen_elapsed =
          some (now - st.start_time) ∧
        ((∀ b ∈ st.best_survival, b < now - st.start_time) →
          (handle_tick ops now st).2 =
            GameAction.record
              (StatRecord.new "Survival"
                (ops.fmt (((now - st.start_time : ℕ) : ℚ) / 1000) ++ "s")
                (((now - st.start_time : ℕ) : ℚ) / 1000))
              GameKind.shooter ∧
          (handle_tick ops now st).1.best_survival =
            some (now - st.start_time)) ∧
        (∀ b, st.best_survival = some b → ¬ b < now - st.start_time →
          (handle_tick ops now st).2 = GameAction.none ∧
          (handle_tick ops now st).1.best_survival = some b)) ∧
      (anyClose ops (tickMoved ops now st) = false →
        (handle_tick ops now st).1.alive = true ∧
        (handle_tick ops now st).2 = GameAction.none)) ∧
    (st.alive = false →
      (handle_tick ops now st).2 = GameAction.none ∧
      (handle_tick ops now st).1.alive = false) := by
  constructor
  · intro ha hf
    have hm := tickMoved_fields ops now st
    have halive : (tickMoved ops now st).alive = true := by rw [hm.1, ha]
    have hbest : (tickMoved ops now st).best_survival = st.best_survival :=
      hm.2.2.2.1
    have hstart : (tickMoved ops now st).start_time = st.start_time :=
      hm.2.2.2.2.1
    have hfro : (tickMoved ops now st).frozen_elapsed = none := by
      rw [hm.2.2.2.2.2.1, hf]
    have helap : (tickMoved ops now st).elapsedMs now = now - st.start_time := by
      unfold elapsedMs
      rw [hfro, hstart]
    constructor
    · intro hc
      rw [handle_tick_close ops now st ha hc]
      rcases hbs : st.best_survival with _ | b
      · have hb : (Option.map
            (fun best => decide (best < (tickMoved ops now st).elapsedMs now))
            (tickMoved ops now st).best_survival).getD true = true := by
          rw [hbest, hbs]
          simp
        rw [handle_failure_eq_pos ops now _ halive hb]
        refine ⟨rfl, ?_, ?_, ?_⟩
        · simp [helap]
        · intro _
          simp [helap]
        · intro b hbsome
          exact absurd hbsome (by simp)
      · by_cases hlt : b < now - st.start_time
        · have hb : (Option.map
              (fun best => decide (best < (tickMoved ops now st).elapsedMs now))
              (tickMoved ops now st).best_survival).getD true = true := by
            rw [hbest, hbs]
            simp [helap, hlt]
          rw [handle_failure_eq_pos ops now _ halive hb]
          refine ⟨rfl, ?_, ?_, ?_⟩
          · simp [helap]
          · intro _
            simp [helap]
          · intro b' hbsome hnlt
            cases hbsome
            exact absurd hlt hnlt
        · have hb : ¬ (Option.map
              (fun best => decide (best < (tickMoved ops now st).elapsedMs now))
              (tickMoved ops now st).best_survival).getD true = true := by
            rw [hbest, hbs]
            simp [helap, hlt]
          rw [handle_failure_eq_neg ops now _ halive hb]
          refine ⟨rfl, ?_, ?_, ?_⟩
          · simp [helap]
          · intro hall
            have := hall b (by simp)
            exact absurd this hlt
          · intro b' hbsome hnlt
            cases hbsome
            exact ⟨rfl, by simp [hbest, hbs]⟩
    · intro hc
      rw [handle_tick_noclose ops now st ha hc]
      refine ⟨?_, rfl⟩
      simp [retainEnemies, halive]
  · intro ha
    rw [handle_tick_dead ops now st ha]
    exact ⟨rfl, by simp [retainEnemies, ha]⟩

open ShooterState in
/-- C2: firing while alive with an empty magazine and no pending reload
destroys no enemy (the state is unchanged apart from starting the reload
and the status message) and starts a fixed-duration reload; firing again
before the reload deadline is a no-op beyond the status message; the
magazine is refilled to full capacity by the first tick whose time is at or
past the deadline, and is not refilled by `fire` itself (not eagerly). -/
theorem shooter_reload_protocol (ops : Ops) (now : ℕ) (st : ShooterState)
    (ha : st.alive = true) :
    (st.shots_remaining = 0 → st.reloading_until = none →
      fire ops now st =
        { st with reloading_until := some (now + RELOAD_MS),
                  status := "Reloading..." }) ∧
    (∀ u, st.reloading_until = some u → now < u →
      fire ops now st = { st with status := "Reloading..." }) ∧
    (∀ u, st.reloading_until = some u →
      (u ≤ now →
        (handle_tick ops now st).1.shots_remaining = MAG_CAPACITY ∧
        (handle_tick ops now st).1.reloading_until = none) ∧
      (now < u →
        (handle_tick ops now st).1.shots_remaining = st.shots_remaining ∧
        (handle_tick ops now st).1.reloading_until = some u)) ∧
    (st.shots_remaining = 0 → (fire ops now st).shots_remaining = 0) := by
  have htick : ∀ u, st.reloading_until = some u →
      (handle_tick ops now st).1.shots_remaining =
        (reloadCheck now st).shots_remaining ∧
      (handle_tick ops now st).1.reloading_until =
        (reloadCheck now st).reloading_until := by
    intro u hu
    rw [handle_tick_fst, tick_internal_alive_eq ops now st ha]
    by_cases hc : anyClose ops (tickMoved ops now st)
    · have hf := handle_failure_fields ops now (tickMoved ops now st)
      have hm := tickMoved_shots_reloading ops now st
      simp only [hc, if_true]
      exact ⟨hf.1.trans hm.1, hf.2.1.trans hm.2⟩
    · have hm := tickMoved_shots_reloading ops now st
      simp only [hc, if_false, retainEnemies]
      exact ⟨hm.1, hm.2⟩
  refine ⟨?_, ?_, ?_, ?_⟩
  · intro hs hr
    unfold fire
    simp [ha, hr, hs]
  · intro u hu hlt
    unfold fire
    simp [ha, hu, Nat.lt_iff_add_one_le.mp hlt, hlt]
  · intro u hu
    have h := htick u hu
    constructor
    · intro hle
      rw [h.1, h.2]
      unfold reloadCheck
      simp [hu, hle]
    · intro hlt
      rw [h.1, h.2]
      unfold reloadCheck
      simp [hu, Nat.not_le.mpr hlt]
  · intro hs
    unfold fire
    rcases hr : st.reloading_until with _ | u
    · simp [ha, hr, hs]
    · by_cases hlt : now < u
      · simp [ha, hr, hlt, hs]
      · simp [ha, hr, hlt, hs]

open App in
/-- C7: `App::handle_key` follows the fixed priority chain: an open command
palette consumes every key (Escape closes it discarding the buffer; Enter
closes it and executes the trimmed buffer); otherwise `:` with no modifiers
opens the palette; otherwise the raw key event is forwarded to the active
Game Module (its returned action merged via `handle_game_action`); otherwise
the event is treated as a menu-navigation key. -/
theorem app_dispatch_chain {M Menu : Type} (mops : ModuleOps M)
    (menuOps : MenuOps Menu) (now : ℕ) (key : KeyEvent) (st : App M Menu) :
    (∀ b, st.command = some b →
      (handle_key mops menuOps now key st =
          (handle_command_key mops now key st).1 ∧
        (handle_command_key mops now key st).2 = true) ∧
      (key.code = .esc →
        handle_key mops menuOps now key st = { st with command := none }) ∧
      (key.code = .enter →
        handle_key mops menuOps now key st =
          execute_command mops now b.trim { st with command := none })) ∧
    (st.command = none → key.code = .char ':' → key.modifiers = 0 →
      handle_key mops menuOps now key st = { st with command := some "" }) ∧
    (∀ gm, st.command = none →
      ¬(key.code = .char ':' ∧ key.modifiers = 0) → st.active = some gm →
      handle_key mops menuOps now key st =
        handle_game_action
          { st with active := some (mops.handleEvent gm (.key key)).1 }
          (mops.handleEvent gm (.key key)).2) ∧
    (st.command = none →
      ¬(key.code = .char ':' ∧ key.modifiers = 0) → st.active = none →
      handle_key mops menuOps now key st =
        handle_menu_key mops menuOps now key st) := by
  obtain ⟨code, mods⟩ := key
  have hck : ∀ b, st.command = some b →
      (handle_command_key mops now ⟨code, mods⟩ st).2 = true := by
    intro b hb
    unfold handle_command_key
    rw [hb]
    cases code with
    | char c =>
      show (if isControl c then (st, true)
        else ({ st with command := some (b.push c) }, true)).2 = true
      split <;> rfl
    | left => rfl
    | right => rfl
    | up => rfl
    | down => rfl
    | esc => rfl
    | enter => rfl
    | backspace => rfl
    | other => rfl
  refine ⟨?_, ?_, ?_, ?_⟩
  · intro b hb
    refine ⟨⟨?_, hck b hb⟩, ?_, ?_⟩
    · unfold handle_key
      simp [hck b hb]
    · intro hesc
      have hc : code = .esc := hesc
      subst hc
      unfold handle_key handle_command_key
      rw [hb]
      rfl
    · intro hent
      have hc : code = .enter := hent
      subst hc
      unfold handle_key handle_command_key
      rw [hb]
      rfl
  · intro hn hcol hmod
    have hc : code = .char ':' := hcol
    subst hc
    have hm : mods = 0 := hmod
    subst hm
    unfold handle_key handle_command_key
    rw [hn]
    rfl
  · intro gm hn hne hact
    have h1 : handle_command_key mops now ⟨code, mods⟩ st = (st, false) := by
      unfold handle_command_key
      rw [hn]
    unfold handle_key
    rw [h1]
    rw [if_neg (by simp)]
    rw [if_neg hne, hact]
  · intro hn hne hact
    have h1 : handle_command_key mops now ⟨code, mods⟩ st = (st, false) := by
      unfold handle_command_key
      rw [hn]
    unfold handle_key
    rw [h1]
    rw [if_neg (by simp)]
    rw [if_neg hne, hact]

open App in
/-- Witness for C7: with the palette open, Escape closes it discarding the
buffer; with it closed, `:` with no modifiers opens it with an empty
buffer. -/
theorem app_dispatch_chain_witness :
    (handle_key unitModuleOps unitMenuOps 0 ⟨.esc, 0⟩
        (⟨(), none, [], false, none, some "q", false⟩ : App Unit Unit) =
      ⟨(), none, [], false, none, none, false⟩) ∧
    (handle_key unitModuleOps unitMenuOps 0 ⟨.char ':', 0⟩
        (⟨(), none, [], false, none, none, false⟩ : App Unit Unit) =
      ⟨(), none, [], false, none, some "", false⟩) :=
  ⟨((app_dispatch_chain unitModuleOps unitMenuOps 0 ⟨.esc, 0⟩
      ⟨(), none, [], false, none, some "q", false⟩).1 "q" rfl).2.1 rfl,
    (app_dispatch_chain unitModuleOps unitMenuOps 0 ⟨.char ':', 0⟩
      ⟨(), none, [], false, none, none, false⟩).2.1 rfl rfl rfl⟩

open App in
/-- C8: executing `qa` sets `should_quit` regardless of the active module
(which it leaves untouched); executing an unrecognized non-empty command
`t` only sets a toast whose message is exactly `"Unknown command :" ++ t`
(so it contains `"Unknown command :t"`), leaving the active module and all
other state unchanged; executing the empty command changes nothing. -/
theorem app_execute_commands {M Menu : Type} (mops : ModuleOps M) (now : ℕ)
    (st : App M Menu) (t : String) :
    ((execute_command mops now "qa" st).should_quit = true ∧
      (execute_command mops now "qa" st).active = st.active) ∧
    (t ≠ "" → t ∉ (["qa", "quitall", "q", "quit", "menu", "restart",
        "help"] : List String) →
      execute_command mops now t st =
        { st with
            toast := some (Toast.new ("Unknown command :" ++ t) now) }) ∧
    execute_command mops now "" st = st := by
  refine ⟨⟨rfl, rfl⟩, ?_, rfl⟩
  intro hne hmem
  have h1 : ¬(t = "qa" ∨ t = "quitall") := by
    rintro (h | h) <;> (subst h; exact hmem (by simp))
  have h2 : ¬(t = "q" ∨ t = "quit") := by
    rintro (h | h) <;> (subst h; exact hmem (by simp))
  have h3 : ¬t = "menu" := by
    intro h
    subst h
    exact hmem (by simp)
  have h4 : ¬t = "restart" := by
    intro h
    subst h
    exact hmem (by simp)
  have h5 : ¬t = "help" := by
    intro h
    subst h
    exact hmem (by simp)
  unfold execute_command
  rw [if_neg h1, if_neg h2, if_neg h3, if_neg h4, if_neg h5, if_neg hne]

open App in
/-- Witness for C8 at concrete inputs: `qa` quits with a module active;
`bogus` produces the `"Unknown command :bogus"` toast and changes nothing
else; the empty command is a no-op. -/
theorem app_execute_commands_witness :
    (execute_command unitModuleOps 0 "qa"
        (⟨(), some (), [], false, none, none, false⟩ :
          App Unit Unit)).should_quit = true ∧
    execute_command unitModuleOps 0 "bogus"
        (⟨(), some (), [], false, none, none, false⟩ : App Unit Unit) =
      ⟨(), some (), [], false,
        some (Toast.new "Unknown command :bogus" 0), none, false⟩ ∧
    execute_command unitModuleOps 0 ""
        (⟨(), some (), [], false, none, none, false⟩ : App Unit Unit) =
      ⟨(), some (), [], false, none, none, false⟩ := by
  refine ⟨(app_execute_commands unitModuleOps 0
      ⟨(), some (), [], false, none, none, false⟩ "bogus").1.1, ?_,
    (app_execute_commands unitModuleOps 0
      ⟨(), some (), [], false, none, none, false⟩ "bogus").2.2⟩
  have h := (app_execute_commands unitModuleOps 0
      ⟨(), some (), [], false, none, none, false⟩ "bogus").2.1
    (by decide) (by decide)
  simpa using h

open ShooterState in
/-- Witness for C1: firing at a freshly constructed state (no enemies, so
no hit candidates) leaves the enemy list and kill count unchanged, and in
general destroys zero or one enemy. -/
theorem shooter_fire_hit_selection_witness :
    ((fire sampleOps 100 (ShooterState.new 0)).enemies =
        (ShooterState.new 0).enemies ∧
      (fire sampleOps 100 (ShooterState.new 0)).kills =
        (ShooterState.new 0).kills) ∧
    ((fire sampleOps 100 (ShooterState.new 0)).enemies.length =
        (ShooterState.new 0).enemies.length ∨
      (fire sampleOps 100 (ShooterState.new 0)).enemies.length + 1 =
        (ShooterState.new 0).enemies.length) :=
  ⟨(shooter_fire_hit_selection sampleOps 100 (ShooterState.new 0) rfl rfl
      (by decide)).1
      (fun k hk => absurd hk (by simp [ShooterState.new])),
    (shooter_fire_hit_selection sampleOps 100 (ShooterState.new 0) rfl rfl
      (by decide)).2.2⟩

open ShooterState in
/-- Witness for C2: an empty-magazine fire at time 100 starts a reload due
at `100 + RELOAD_MS` and destroys nothing. -/
theorem shooter_reload_protocol_witness :
    fire sampleOps 100 { sampleShooter with shots_remaining := 0 } =
      { sampleShooter with
          shots_remaining := 0
          reloading_until := some (100 + RELOAD_MS)
          status := "Reloading..." } :=
  (shooter_reload_protocol sampleOps 100
    { sampleShooter with shots_remaining := 0 } rfl).1 rfl rfl

open ShooterState in
/-- Witness for C3: in `closeShooter` (an enemy within the proximity
threshold), the tick at time 0 ends the run, freezes the survival time at
0, and emits a record (no previous best exists). -/
theorem shooter_failure_record_witness :
    (handle_tick sampleOps 0 closeShooter).1.alive = false ∧
    (handle_tick sampleOps 0 closeShooter).1.frozen_elapsed = some 0 ∧
    (handle_tick sampleOps 0 closeShooter).2 =
      GameAction.record
        (StatRecord.new "Survival"
          (sampleOps.fmt (((0 : ℕ) : ℚ) / 1000) ++ "s")
          (((0 : ℕ) : ℚ) / 1000)) GameKind.shooter := by
  have hms : maybe_spawn sampleOps 0
      (reloadCheck 0 { closeShooter with last_tick := 0 }) =
      reloadCheck 0 { closeShooter with last_tick := 0 } := by
    unfold maybe_spawn
    rw [spawnLoop, dif_neg (by omega)]
  have hc : anyClose sampleOps (tickMoved sampleOps 0 closeShooter) = true := by
    unfold tickMoved
    rw [hms]
    norm_num [anyClose, updateEnemies, Enemy.update, reloadCheck,
      closeShooter, ShooterState.new, Vec2.distance, CLOSE_THRESHOLD,
      sampleOps, Vec2.zero]
  have h := (shooter_failure_record sampleOps 0 closeShooter).1 rfl rfl
  refine ⟨(h.1 hc).1, ?_, ?_⟩
  · have hf := (h.1 hc).2.1
    simpa [closeShooter, ShooterState.new] using hf
  · have hr := (h.1 hc).2.2.1
      (by intro b hb; simp [closeShooter, ShooterState.new] at hb)
    simpa [closeShooter, ShooterState.new] using hr.1

open ShooterState in
/-- Witness for C9: the invariant holds for the freshly constructed state
under the concrete oracle, and an empty-magazine fire at time 5 leaves a
reload pending with the magazine below capacity. -/
theorem shooter_invariants_witness :
    Invariant sampleOps (ShooterState.new 0) ∧
    (fire sampleOps 5
        { ShooterState.new 0 with shots_remaining := 0 }).reloading_until =
      some (5 + RELOAD_MS) :=
  ⟨(shooter_invariants sampleOps 0 Event.nonkey (ShooterState.new 0)
      (by decide)).1,
    ((shooter_invariants sampleOps 5 Event.nonkey
        { ShooterState.new 0 with shots_remaining := 0 }
        (by decide)).2.2.2.2 rfl rfl rfl).1⟩

open ShooterState in
/-- Witness for C10: at a concrete event and state, `handle_event` returns
`GameAction::None`. -/
theorem shooter_event_no_record_witness :
    (handle_event sampleOps 0 (Event.key ⟨.char ' ', 0⟩)
      sampleShooter).2 = GameAction.none :=
  (shooter_event_no_record sampleOps 0 (Event.key ⟨.char ' ', 0⟩)
    sampleShooter).1

end Arcade
